import Mathlib

/-!
Shallow embedding of `src/smart-contracts/contracts/InvoiceEscrow.sol`
(contract `InvoiceEscrow`).

Modelling conventions:
* Addresses are `Nat`; the zero address is `0` (used by the contract as the
  sentinel for the native SEI asset and for "no address").
* `uint256` values are `Nat`.  Solidity 0.8 arithmetic reverts on overflow
  rather than wrapping, so the non-reverting executions computed here agree
  with the EVM ones; the amounts in the claims stay far below `2 ^ 256`.
* Each external function becomes a total Lean function from the contract
  state (plus the ambient `msg.sender`, `block.timestamp`, `msg.value`
  context) to `Except EscrowError EscrowState`.  An `Except.error` result
  models a revert: the pre-state is kept unchanged, exactly as on the EVM.
* Solidity mappings become functions `Nat → _`; `invoices` maps to
  `Option Invoice`, where `none` models the all-zero default struct (the
  contract detects existence by `invoices[id].id != 0`, and every stored
  invoice has `id = nextInvoiceId ≥ 1`, so the two views coincide).
* The contract's token holdings (its native balance plus its balance in
  every ERC20 token) are modelled by `held : Nat → Nat` per token address.
  Outbound `transfer`/`safeTransfer` calls fail (revert) when the holding
  is insufficient, as on the EVM.  Inbound `safeTransferFrom` from the
  paying client is modelled as succeeding (the client's own balance is
  outside the model).
* `_releaseFunds` and `resolveDispute` are defined by first computing the
  ordered list of primitive effects (storage writes and outbound
  transfers) that the Solidity body performs, then folding that list over
  the state.  This keeps the source's effect ordering — state updates
  before outbound transfers — visible to the theorems.
-/

/-- `InvoiceStatus` enum of the contract. -/
inductive InvoiceStatus where
  | Created
  | Paid
  | Approved
  | Completed
  | Disputed
  | Cancelled
  | Refunded
deriving DecidableEq, Repr

/-- `PaymentTerms` struct of the contract. -/
structure PaymentTerms where
  paymentWindow : Nat
  earlyPaymentDiscountBps : Nat
  earlyPaymentDeadline : Nat
  requiresApproval : Bool
  arbitrator : Nat
deriving DecidableEq, Repr

/-- `Invoice` struct of the contract. -/
structure Invoice where
  id : Nat
  provider : Nat
  client : Nat
  amount : Nat
  token : Nat
  terms : PaymentTerms
  status : InvoiceStatus
  createdAt : Nat
  dueDate : Nat
  paidAt : Nat
  ipfsHash : String
deriving DecidableEq, Repr

/-- Error taxonomy for reverts, following spec section 7: validation,
authorization, invalid-state, timing, transfer and invariant failures,
plus the `Pausable` reverts. -/
inductive EscrowError where
  | validation : String → EscrowError
  | authorization : String → EscrowError
  | invalidState : String → EscrowError
  | timing : String → EscrowError
  | transferFailed : String → EscrowError
  | invariantViolation : String → EscrowError
  | enforcedPause : EscrowError
  | expectedPause : EscrowError
deriving DecidableEq, Repr

/-- Full storage of one `InvoiceEscrow` contract instance, together with
its (per-token) asset holdings. -/
structure EscrowState where
  nextInvoiceId : Nat
  owner : Nat
  feeCollector : Nat
  paused : Bool
  supportedTokens : Nat → Bool
  invoices : Nat → Option Invoice
  escrowBalances : Nat → Nat
  disputeReasons : Nat → String
  providerInvoices : Nat → List Nat
  clientInvoices : Nat → List Nat
  held : Nat → Nat

/-- Pointwise map update, `m[k] = v`. -/
def upd {α : Type} (f : Nat → α) (k : Nat) (v : α) : Nat → α :=
  fun i => if i = k then v else f i

/-- `PLATFORM_FEE_BPS = 50` (0.5% platform fee). -/
def PLATFORM_FEE_BPS : Nat := 50

/-- `MAX_PAYMENT_WINDOW = 90 days` in seconds. -/
def MAX_PAYMENT_WINDOW : Nat := 90 * 86400

/-- `MIN_PAYMENT_WINDOW = 1 days` in seconds. -/
def MIN_PAYMENT_WINDOW : Nat := 86400

/-- `MAX_EARLY_DISCOUNT_BPS = 1000` (10% max early payment discount). -/
def MAX_EARLY_DISCOUNT_BPS : Nat := 1000

/-- The hard-coded testnet USDC address of the contract. -/
def usdcAddressTestnet : Nat := 0x70730E92502A851011C5033F1432876049774239

/-- Constructor: deployer becomes owner, `feeCollector` must be nonzero,
native SEI (`0`) and the testnet USDC address start on the allow-list. -/
def initState (deployer feeCollector : Nat) : EscrowState :=
  { nextInvoiceId := 1
    owner := deployer
    feeCollector := feeCollector
    paused := false
    supportedTokens := upd (upd (fun _ => false) 0 true) usdcAddressTestnet true
    invoices := fun _ => none
    escrowBalances := fun _ => 0
    disputeReasons := fun _ => ""
    providerInvoices := fun _ => []
    clientInvoices := fun _ => []
    held := fun _ => 0 }

/-- A primitive effect of the settlement paths: a storage write to
`escrowBalances`, a storage write to an invoice's `status`, or an
outbound asset transfer. -/
inductive Eff where
  | setEscrow : Nat → Nat → Eff
  | setStatus : Nat → InvoiceStatus → Eff
  | transferOut : Nat → Nat → Nat → Eff
deriving DecidableEq, Repr

/-- Interpretation of one primitive effect on the state.  A
`transferOut token recipient amount` moves `amount` of `token` out of the
contract's holdings (guarded by a sufficiency check at the call sites). -/
def applyEff (s : EscrowState) : Eff → EscrowState
  | .setEscrow id v => { s with escrowBalances := upd s.escrowBalances id v }
  | .setStatus id st =>
      { s with invoices := fun i =>
          if i = id then (s.invoices i).map (fun inv => { inv with status := st })
          else s.invoices i }
  | .transferOut token _ amount =>
      { s with held := upd s.held token (s.held token - amount) }

/-- Fold a list of primitive effects over the state, left to right. -/
def applyEffs (s : EscrowState) (effs : List Eff) : EscrowState :=
  effs.foldl applyEff s

/-- `_releaseFunds` (lines 284-311), as the ordered list of primitive
effects its body performs: fee computation, then the two storage writes
(escrow zeroed, status `Completed`), then the two outbound transfers.
The leading checks mirror the `require`s: `invoices[id]` must be a real
invoice in status `Approved` with a positive escrow balance.  The
trailing sufficiency check models the two `transfer` calls reverting when
the contract does not hold `escrowAmount` of the invoice's token. -/
def releaseFundsEffs (s : EscrowState) (invoiceId : Nat) : Except EscrowError (List Eff) :=
  match s.invoices invoiceId with
  | none => .error (.invalidState "Invoice not approved")
  | some inv =>
    if inv.status ≠ InvoiceStatus.Approved then
      .error (.invalidState "Invoice not approved")
    else
      let escrowAmount := s.escrowBalances invoiceId
      if escrowAmount = 0 then
        .error (.invariantViolation "No funds in escrow")
      else
        let platformFee := escrowAmount * PLATFORM_FEE_BPS / 10000
        let providerAmount := escrowAmount - platformFee
        if s.held inv.token < escrowAmount then
          .error (.transferFailed "transfer reverted: insufficient holdings")
        else
          .ok ([Eff.setEscrow invoiceId 0,
                Eff.setStatus invoiceId InvoiceStatus.Completed] ++
               [Eff.transferOut inv.token inv.provider providerAmount,
                Eff.transferOut inv.token s.feeCollector platformFee])

/-- `_releaseFunds` as a state transformer: the effects of
`releaseFundsEffs`, folded over the state. -/
def releaseFunds (s : EscrowState) (invoiceId : Nat) : Except EscrowError EscrowState :=
  (releaseFundsEffs s invoiceId).map (applyEffs s)

/-- `createInvoice` (lines 160-210).  The caller becomes the provider;
the stored terms reuse the submitted window/discount/approval/arbitrator
fields but overwrite `earlyPaymentDeadline` with the derived deadline. -/
def createInvoice (s : EscrowState) (sender now : Nat) (client amount token : Nat)
    (terms : PaymentTerms) (ipfsHash : String) : Except EscrowError EscrowState :=
  if s.paused then .error .enforcedPause
  else if client = 0 then .error (.validation "Invalid client address")
  else if client = sender then .error (.validation "Provider and client cannot be the same")
  else if amount = 0 then .error (.validation "Amount must be greater than 0")
  else if ¬ s.supportedTokens token then .error (.validation "Token not supported")
  else if ¬ (MIN_PAYMENT_WINDOW ≤ terms.paymentWindow ∧
             terms.paymentWindow ≤ MAX_PAYMENT_WINDOW) then
    .error (.validation "Invalid payment window")
  else if MAX_EARLY_DISCOUNT_BPS < terms.earlyPaymentDiscountBps then
    .error (.validation "Discount too high")
  else if ipfsHash.length = 0 then .error (.validation "IPFS hash required")
  else
    let invoiceId := s.nextInvoiceId
    let dueDate := now + terms.paymentWindow
    let earlyDeadline :=
      if 0 < terms.earlyPaymentDiscountBps then now + terms.paymentWindow / 2 else 0
    let storedTerms : PaymentTerms :=
      { paymentWindow := terms.paymentWindow
        earlyPaymentDiscountBps := terms.earlyPaymentDiscountBps
        earlyPaymentDeadline := earlyDeadline
        requiresApproval := terms.requiresApproval
        arbitrator := terms.arbitrator }
    let invoice : Invoice :=
      { id := invoiceId
        provider := sender
        client := client
        amount := amount
        token := token
        terms := storedTerms
        status := InvoiceStatus.Created
        createdAt := now
        dueDate := dueDate
        paidAt := 0
        ipfsHash := ipfsHash }
    .ok { s with
          nextInvoiceId := invoiceId + 1
          invoices := upd s.invoices invoiceId (some invoice)
          providerInvoices :=
            upd s.providerInvoices sender (s.providerInvoices sender ++ [invoiceId])
          clientInvoices :=
            upd s.clientInvoices client (s.clientInvoices client ++ [invoiceId]) }

/-- The payment amount `makePayment` charges (lines 228-237): the face
amount, minus `floor(amount * discountBps / 10000)` when a discount is
configured and the call arrives by the early-payment deadline. -/
def requiredPayment (inv : Invoice) (now : Nat) : Nat :=
  if 0 < inv.terms.earlyPaymentDiscountBps ∧ now ≤ inv.terms.earlyPaymentDeadline then
    inv.amount - inv.amount * inv.terms.earlyPaymentDiscountBps / 10000
  else
    inv.amount

/-- The storage writes of `makePayment` after the payment is received
(lines 248-250): escrow balance set to the payment amount, status to
`Paid` or `Approved` depending on `requiresApproval`, `paidAt` to now;
the contract's holdings of the invoice's token grow by the payment. -/
def makePaymentCommit (s : EscrowState) (inv : Invoice) (invoiceId now paymentAmount : Nat) :
    EscrowState :=
  { s with
    escrowBalances := upd s.escrowBalances invoiceId paymentAmount
    invoices := upd s.invoices invoiceId
      (some { inv with
              status := if inv.terms.requiresApproval then InvoiceStatus.Paid
                        else InvoiceStatus.Approved
              paidAt := now })
    held := upd s.held inv.token (s.held inv.token + paymentAmount) }

/-- `makePayment` (lines 216-258).  Modifier order as in the source:
`whenNotPaused`, `validInvoice`, `onlyClient`, then the body `require`s.
When `requiresApproval` is false the payment auto-releases via
`_releaseFunds` within the same call; a revert there reverts the whole
payment. -/
def makePayment (s : EscrowState) (sender now msgValue invoiceId : Nat) :
    Except EscrowError EscrowState :=
  if s.paused then .error .enforcedPause
  else
    match s.invoices invoiceId with
    | none => .error (.validation "Invoice does not exist")
    | some inv =>
      if inv.client ≠ sender then .error (.authorization "Only client can call this")
      else if inv.status ≠ InvoiceStatus.Created then
        .error (.invalidState "Invoice cannot be paid")
      else if inv.dueDate < now then .error (.timing "Invoice has expired")
      else
        let paymentAmount := requiredPayment inv now
        if inv.token = 0 then
          if msgValue ≠ paymentAmount then .error (.validation "Incorrect payment amount")
          else
            let s1 := makePaymentCommit s inv invoiceId now paymentAmount
            if inv.terms.requiresApproval then .ok s1 else releaseFunds s1 invoiceId
        else
          if msgValue ≠ 0 then .error (.validation "Should not send ETH for token payment")
          else
            let s1 := makePaymentCommit s inv invoiceId now paymentAmount
            if inv.terms.requiresApproval then .ok s1 else releaseFunds s1 invoiceId

/-- `approveInvoice` (lines 264-278): client-only, requires status `Paid`
and `requiresApproval`; sets status `Approved` and immediately invokes
`_releaseFunds`. -/
def approveInvoice (s : EscrowState) (sender now invoiceId : Nat) :
    Except EscrowError EscrowState :=
  if s.paused then .error .enforcedPause
  else
    match s.invoices invoiceId with
    | none => .error (.validation "Invoice does not exist")
    | some inv =>
      if inv.client ≠ sender then .error (.authorization "Only client can call this")
      else if inv.status ≠ InvoiceStatus.Paid then
        .error (.invalidState "Invoice not in paid status")
      else if ¬ inv.terms.requiresApproval then
        .error (.invalidState "Invoice does not require approval")
      else
        let inv1 := { inv with status := InvoiceStatus.Approved }
        let s1 := { s with invoices := upd s.invoices invoiceId (some inv1) }
        releaseFunds s1 invoiceId

/-- `raiseDispute` (lines 318-336): provider or client, status `Paid` or
`Approved`, non-empty reason; sets status `Disputed` and stores the
reason. -/
def raiseDispute (s : EscrowState) (sender now invoiceId : Nat) (reason : String) :
    Except EscrowError EscrowState :=
  if s.paused then .error .enforcedPause
  else
    match s.invoices invoiceId with
    | none => .error (.validation "Invoice does not exist")
    | some inv =>
      if ¬ (inv.provider = sender ∨ inv.client = sender) then
        .error (.authorization "Only provider or client can call this")
      else if ¬ (inv.status = InvoiceStatus.Paid ∨ inv.status = InvoiceStatus.Approved) then
        .error (.invalidState "Cannot dispute invoice in current status")
      else if reason.length = 0 then .error (.validation "Dispute reason required")
      else
        .ok { s with
              invoices := upd s.invoices invoiceId
                (some { inv with status := InvoiceStatus.Disputed })
              disputeReasons := upd s.disputeReasons invoiceId reason }

/-- `resolveDispute` (lines 343-388), as the ordered list of primitive
effects.  Checks in source order: status `Disputed` first, then the
arbitrator-or-owner authorization, then positive escrow.  The balance is
zeroed first in both branches; the favor-provider branch then applies the
settlement fee split, the refund branch sends the full balance to the
client.  The sufficiency check models the outbound transfers reverting
when the contract's holdings are short. -/
def resolveDisputeEffs (s : EscrowState) (sender now invoiceId : Nat) (favorProvider : Bool) :
    Except EscrowError (List Eff) :=
  if s.paused then .error .enforcedPause
  else
    match s.invoices invoiceId with
    | none => .error (.validation "Invoice does not exist")
    | some inv =>
      if inv.status ≠ InvoiceStatus.Disputed then .error (.invalidState "Invoice not disputed")
      else if ¬ (sender = inv.terms.arbitrator ∨ sender = s.owner) then
        .error (.authorization "Only arbitrator can resolve dispute")
      else
        let escrowAmount := s.escrowBalances invoiceId
        if escrowAmount = 0 then .error (.invariantViolation "No funds in escrow")
        else if s.held inv.token < escrowAmount then
          .error (.transferFailed "transfer reverted: insufficient holdings")
        else if favorProvider then
          let platformFee := escrowAmount * PLATFORM_FEE_BPS / 10000
          let providerAmount := escrowAmount - platformFee
          .ok ([Eff.setEscrow invoiceId 0,
                Eff.setStatus invoiceId InvoiceStatus.Completed] ++
               [Eff.transferOut inv.token inv.provider providerAmount,
                Eff.transferOut inv.token s.feeCollector platformFee])
        else
          .ok ([Eff.setEscrow invoiceId 0,
                Eff.setStatus invoiceId InvoiceStatus.Refunded] ++
               [Eff.transferOut inv.token inv.client escrowAmount])

/-- `resolveDispute` as a state transformer. -/
def resolveDispute (s : EscrowState) (sender now invoiceId : Nat) (favorProvider : Bool) :
    Except EscrowError EscrowState :=
  (resolveDisputeEffs s sender now invoiceId favorProvider).map (applyEffs s)

/-- `cancelInvoice` (lines 394-405): provider-only, status `Created`
only; sets status `Cancelled`. -/
def cancelInvoice (s : EscrowState) (sender now invoiceId : Nat) :
    Except EscrowError EscrowState :=
  if s.paused then .error .enforcedPause
  else
    match s.invoices invoiceId with
    | none => .error (.validation "Invoice does not exist")
    | some inv =>
      if inv.provider ≠ sender then .error (.authorization "Only provider can call this")
      else if inv.status ≠ InvoiceStatus.Created then
        .error (.invalidState "Can only cancel unpaid invoices")
      else
        let inv1 := { inv with status := InvoiceStatus.Cancelled }
        .ok { s with invoices := upd s.invoices invoiceId (some inv1) }

/-- `addSupportedToken` (line 449): owner-only. -/
def addSupportedToken (s : EscrowState) (sender token : Nat) :
    Except EscrowError EscrowState :=
  if sender ≠ s.owner then .error (.authorization "caller is not the owner")
  else .ok { s with supportedTokens := upd s.supportedTokens token true }

/-- `removeSupportedToken` (line 453): owner-only. -/
def removeSupportedToken (s : EscrowState) (sender token : Nat) :
    Except EscrowError EscrowState :=
  if sender ≠ s.owner then .error (.authorization "caller is not the owner")
  else .ok { s with supportedTokens := upd s.supportedTokens token false }

/-- `setFeeCollector` (line 457): owner-only, nonzero collector. -/
def setFeeCollector (s : EscrowState) (sender collector : Nat) :
    Except EscrowError EscrowState :=
  if sender ≠ s.owner then .error (.authorization "caller is not the owner")
  else if collector = 0 then .error (.validation "Invalid fee collector")
  else .ok { s with feeCollector := collector }

/-- `pause` (line 462): owner-only; `Pausable._pause` reverts when
already paused. -/
def pause (s : EscrowState) (sender : Nat) : Except EscrowError EscrowState :=
  if sender ≠ s.owner then .error (.authorization "caller is not the owner")
  else if s.paused then .error .enforcedPause
  else .ok { s with paused := true }

/-- `unpause` (line 466): owner-only; `Pausable._unpause` reverts when
not paused. -/
def unpause (s : EscrowState) (sender : Nat) : Except EscrowError EscrowState :=
  if sender ≠ s.owner then .error (.authorization "caller is not the owner")
  else if ¬ s.paused then .error .expectedPause
  else .ok { s with paused := false }

/-- `emergencyWithdraw` (lines 471-477): owner-only; transfers the
requested amount of the requested token to the owner.  The body performs
no check against `escrowBalances`; the only limit is the transfer itself
reverting when the contract's holdings are short. -/
def emergencyWithdraw (s : EscrowState) (sender token amount : Nat) :
    Except EscrowError EscrowState :=
  if sender ≠ s.owner then .error (.authorization "caller is not the owner")
  else if s.held token < amount then
    .error (.transferFailed "transfer reverted: insufficient holdings")
  else .ok { s with held := upd s.held token (s.held token - amount) }

/-- Environment action, not a contract function: someone transfers
tokens straight to the contract address (an ERC20 transfer, or a forced
native send).  This is the "stray transfer" the spec's emergency
withdrawal is meant to recover; it grows the holdings without touching
any invoice. -/
def depositStray (s : EscrowState) (token amount : Nat) : Except EscrowError EscrowState :=
  .ok { s with held := upd s.held token (s.held token + amount) }

/-- One external call to the contract (or the stray-deposit environment
action), with its arguments. -/
inductive Op where
  | createInvoice (client amount token : Nat) (terms : PaymentTerms) (ipfsHash : String)
  | makePayment (msgValue invoiceId : Nat)
  | approveInvoice (invoiceId : Nat)
  | raiseDispute (invoiceId : Nat) (reason : String)
  | resolveDispute (invoiceId : Nat) (favorProvider : Bool)
  | cancelInvoice (invoiceId : Nat)
  | addSupportedToken (token : Nat)
  | removeSupportedToken (token : Nat)
  | setFeeCollector (collector : Nat)
  | pause
  | unpause
  | emergencyWithdraw (token amount : Nat)
  | depositStray (token amount : Nat)
deriving DecidableEq, Repr

/-- Dispatch one call: `sender` is `msg.sender`, `now` is
`block.timestamp`. -/
def step (s : EscrowState) (sender now : Nat) : Op → Except EscrowError EscrowState
  | .createInvoice client amount token terms ipfsHash =>
      createInvoice s sender now client amount token terms ipfsHash
  | .makePayment msgValue invoiceId => makePayment s sender now msgValue invoiceId
  | .approveInvoice invoiceId => approveInvoice s sender now invoiceId
  | .raiseDispute invoiceId reason => raiseDispute s sender now invoiceId reason
  | .resolveDispute invoiceId favorProvider =>
      resolveDispute s sender now invoiceId favorProvider
  | .cancelInvoice invoiceId => cancelInvoice s sender now invoiceId
  | .addSupportedToken token => addSupportedToken s sender token
  | .removeSupportedToken token => removeSupportedToken s sender token
  | .setFeeCollector collector => setFeeCollector s sender collector
  | .pause => pause s sender
  | .unpause => unpause s sender
  | .emergencyWithdraw token amount => emergencyWithdraw s sender token amount
  | .depositStray token amount => depositStray s token amount

/-- Reachable contract states: a freshly deployed instance (any deployer,
any nonzero fee collector), closed under successful calls. -/
inductive Reachable : EscrowState → Prop where
  | init (deployer feeCollector : Nat) (h : feeCollector ≠ 0) :
      Reachable (initState deployer feeCollector)
  | step {s s' : EscrowState} (sender now : Nat) (op : Op) :
      Reachable s → step s sender now op = .ok s' → Reachable s'

/-! ### Concrete scenario states

A deployed instance (deployer `900`, fee collector `901`) run through
small concrete scenarios.  These states feed the witnesses and
counterexamples below. -/

/-- Extract the post-state of a call known to succeed. -/
def okOr (r : Except EscrowError EscrowState) (d : EscrowState) : EscrowState :=
  match r with
  | .ok s => s
  | .error _ => d

/-- Terms of scenario A: 30-day window, 5% early-payment discount,
approval required, arbitrator `300`. -/
def termsA : PaymentTerms :=
  { paymentWindow := 2592000
    earlyPaymentDiscountBps := 500
    earlyPaymentDeadline := 0
    requiresApproval := true
    arbitrator := 300 }

/-- Freshly deployed instance: deployer/owner `900`, fee collector `901`. -/
def sBase : EscrowState := initState 900 901

/-- Provider `100` creates invoice `1` for client `200` (amount `1000`,
native token), at time `1000`. -/
def sA1 : EscrowState :=
  okOr (step sBase 100 1000 (Op.createInvoice 200 1000 0 termsA "Qm")) sBase

/-- Client `200` pays invoice `1` at time `2000`, inside the discount
window, supplying the discounted `950`; approval is required so the
funds sit in escrow (status `Paid`). -/
def sA2 : EscrowState := okOr (step sA1 200 2000 (Op.makePayment 950 1)) sA1

/-- Client `200` raises a dispute on invoice `1` at time `3000`. -/
def sA3 : EscrowState := okOr (step sA2 200 3000 (Op.raiseDispute 1 "late")) sA2

/-- Arbitrator `300` resolves the dispute in favor of the client at time
`4000`: invoice `1` is `Refunded`. -/
def sA4 : EscrowState := okOr (step sA3 300 4000 (Op.resolveDispute 1 false)) sA3

/-- Owner `900` drains the full holdings (`950` of the native token)
through `emergencyWithdraw`, straight from state `sA2` where the `950`
are the escrow of the still-`Paid` invoice `1`. -/
def sB : EscrowState := okOr (step sA2 900 5000 (Op.emergencyWithdraw 0 950)) sA2

/-- Terms of scenario C: as scenario A but with `requiresApproval` off,
so payment auto-settles. -/
def termsC : PaymentTerms :=
  { paymentWindow := 2592000
    earlyPaymentDiscountBps := 500
    earlyPaymentDeadline := 0
    requiresApproval := false
    arbitrator := 300 }

/-- Provider `100` creates invoice `1` (no approval required) at time
`1000`. -/
def sC1 : EscrowState :=
  okOr (step sBase 100 1000 (Op.createInvoice 200 1000 0 termsC "Qm")) sBase

/-- Client `200` pays the discounted `950` at time `2000`; the payment
auto-settles: provider receives `946`, fee collector `4`, invoice `1`
ends `Completed` with zero balance. -/
def sC2 : EscrowState := okOr (step sC1 200 2000 (Op.makePayment 950 1)) sC1

/-! ### Concrete invoices of the scenarios, and coverage -/

/-- Invoice `1` as stored by scenario A's creation (status `Created`). -/
def invA1 : Invoice :=
  { id := 1
    provider := 100
    client := 200
    amount := 1000
    token := 0
    terms :=
      { paymentWindow := 2592000
        earlyPaymentDiscountBps := 500
        earlyPaymentDeadline := 1297000
        requiresApproval := true
        arbitrator := 300 }
    status := InvoiceStatus.Created
    createdAt := 1000
    dueDate := 2593000
    paidAt := 0
    ipfsHash := "Qm" }

/-- Invoice `1` after scenario A's payment (status `Paid`). -/
def invA2 : Invoice := { invA1 with status := InvoiceStatus.Paid, paidAt := 2000 }

/-- Invoice `1` after scenario A's dispute (status `Disputed`). -/
def invA3 : Invoice := { invA1 with status := InvoiceStatus.Disputed, paidAt := 2000 }

/-- Invoice `1` after scenario A's refund (status `Refunded`). -/
def invA4 : Invoice := { invA1 with status := InvoiceStatus.Refunded, paidAt := 2000 }

/-- Invoice `1` after scenario C's auto-settling payment
(status `Completed`). -/
def invC2 : Invoice :=
  { invA1 with
    terms :=
      { paymentWindow := 2592000
        earlyPaymentDiscountBps := 500
        earlyPaymentDeadline := 1297000
        requiresApproval := false
        arbitrator := 300 }
    status := InvoiceStatus.Completed
    paidAt := 2000 }

/-- A hand-built state holding invoice `1` in the transient `Approved`
status with `950` in escrow, as `_releaseFunds` sees it mid-call. -/
def sW : EscrowState :=
  { sBase with
    nextInvoiceId := 2
    invoices := upd sBase.invoices 1 (some { invA1 with status := InvoiceStatus.Approved })
    escrowBalances := upd sBase.escrowBalances 1 950
    held := upd sBase.held 0 950 }

/-- Owner `900` pauses the freshly deployed contract. -/
def sP : EscrowState := okOr (step sBase 900 0 Op.pause) sBase

/-- The escrow balance that invoice `i` contributes to the total tracked
amount of token `t`. -/
def escrowContribution (s : EscrowState) (t i : Nat) : Nat :=
  match s.invoices i with
  | some inv => if inv.token = t then s.escrowBalances i else 0
  | none => 0

/-- The sum of all escrow balances tracked for token `t` (only ids below
`nextInvoiceId` can carry an invoice). -/
def sumEscrow (s : EscrowState) (t : Nat) : Nat :=
  (Finset.range s.nextInvoiceId).sum (escrowContribution s t)

/-- The coverage invariant of spec section 3: per token, the tracked
escrow total is coverable by the contract's actual holdings. -/
def covered (s : EscrowState) : Prop := ∀ t, sumEscrow s t ≤ s.held t

/-- Invariant maintained by every reachable state.  `fresh`,
`freshEscrow`, `freshReason` say unallocated ids carry nothing;
`noApproved` says `Approved` is never a resting status between calls;
`escrowZero` says the escrow balance is zero outside
`{Paid, Approved, Disputed}`; `reasonStatus` says a non-empty dispute
reason belongs to an invoice that is currently `Disputed` or was
disputed and then resolved (`Completed`/`Refunded`). -/
structure EscrowInv (s : EscrowState) : Prop where
  fresh : ∀ i, s.nextInvoiceId ≤ i → s.invoices i = none
  freshEscrow : ∀ i, s.invoices i = none → s.escrowBalances i = 0
  freshReason : ∀ i, s.invoices i = none → s.disputeReasons i = ""
  noApproved : ∀ i inv, s.invoices i = some inv → inv.status ≠ InvoiceStatus.Approved
  escrowZero : ∀ i inv, s.invoices i = some inv →
    inv.status ≠ InvoiceStatus.Paid → inv.status ≠ InvoiceStatus.Approved →
    inv.status ≠ InvoiceStatus.Disputed → s.escrowBalances i = 0
  reasonStatus : ∀ i, s.disputeReasons i ≠ "" →
    ∃ inv, s.invoices i = some inv ∧
      (inv.status = InvoiceStatus.Disputed ∨ inv.status = InvoiceStatus.Completed ∨
       inv.status = InvoiceStatus.Refunded)

/-! ### Success-path characterizations of the operations -/

theorem upd_self {α : Type} (f : Nat → α) (k : Nat) (v : α) : upd f k v k = v := by
  simp [upd]

theorem upd_other {α : Type} (f : Nat → α) (k j : Nat) (v : α) (h : j ≠ k) :
    upd f k v j = f j := by
  simp [upd, h]

/-- A successful `_releaseFunds` came from an `Approved` invoice with a
positive, fully-held escrow balance, and produced exactly: balance
zeroed, status `Completed`, holdings down by the full balance; nothing
else changed. -/
theorem releaseFunds_ok_elim (s : EscrowState) (invoiceId : Nat) (s' : EscrowState)
    (h : releaseFunds s invoiceId = .ok s') :
    ∃ inv, s.invoices invoiceId = some inv ∧
      inv.status = InvoiceStatus.Approved ∧
      0 < s.escrowBalances invoiceId ∧
      s.escrowBalances invoiceId ≤ s.held inv.token ∧
      s'.nextInvoiceId = s.nextInvoiceId ∧
      s'.owner = s.owner ∧
      s'.feeCollector = s.feeCollector ∧
      s'.paused = s.paused ∧
      s'.supportedTokens = s.supportedTokens ∧
      s'.disputeReasons = s.disputeReasons ∧
      s'.providerInvoices = s.providerInvoices ∧
      s'.clientInvoices = s.clientInvoices ∧
      s'.invoices invoiceId = some { inv with status := InvoiceStatus.Completed } ∧
      (∀ j, j ≠ invoiceId → s'.invoices j = s.invoices j) ∧
      s'.escrowBalances invoiceId = 0 ∧
      (∀ j, j ≠ invoiceId → s'.escrowBalances j = s.escrowBalances j) ∧
      s'.held = upd s.held inv.token
        (s.held inv.token
          - (s.escrowBalances invoiceId
              - s.escrowBalances invoiceId * PLATFORM_FEE_BPS / 10000)
          - s.escrowBalances invoiceId * PLATFORM_FEE_BPS / 10000) := by
  unfold releaseFunds releaseFundsEffs at h
  cases hinv : s.invoices invoiceId with
  | none => rw [hinv] at h; exact Except.noConfusion h
  | some inv =>
    rw [hinv] at h
    dsimp only at h
    refine ⟨inv, rfl, ?_⟩
    split at h
    · exact Except.noConfusion h
    · split at h
      · exact Except.noConfusion h
      · split at h
        · exact Except.noConfusion h
        · rename_i hstatus hzero hheld
          simp only [Except.map, applyEffs, List.cons_append, List.nil_append,
            List.foldl, applyEff] at h
          injection h with h
          subst h
          refine ⟨by simpa using hstatus, Nat.pos_of_ne_zero hzero, Nat.le_of_not_lt hheld,
            rfl, rfl, rfl, rfl, rfl, rfl, rfl, rfl, ?_, ?_, ?_, ?_, ?_⟩
          · simp [upd, hinv]
          · intro j hj; simp [upd, hj, hinv]
          · simp [upd]
          · intro j hj; simp [upd, hj]
          · funext t
            by_cases ht : t = inv.token <;> simp [upd, ht]

/-- The platform fee never exceeds the settled balance. -/
theorem fee_le (n : Nat) : n * PLATFORM_FEE_BPS / 10000 ≤ n := by
  calc n * PLATFORM_FEE_BPS / 10000
      ≤ n * 10000 / 10000 :=
        Nat.div_le_div_right (Nat.mul_le_mul_left n (by norm_num [PLATFORM_FEE_BPS]))
    _ = n := Nat.mul_div_cancel n (by norm_num)

/-- Auto-release after a payment: committing the payment and then
releasing leaves the invoice `Completed` with zero balance and the
contract's holdings unchanged. -/
theorem commit_release_elim (s : EscrowState) (inv : Invoice) (invoiceId now pa : Nat)
    (hinv : s.invoices invoiceId = some inv)
    (hreq : inv.terms.requiresApproval = false) (s' : EscrowState)
    (h : releaseFunds (makePaymentCommit s inv invoiceId now pa) invoiceId = .ok s') :
    0 < pa ∧
    s'.nextInvoiceId = s.nextInvoiceId ∧
    s'.owner = s.owner ∧
    s'.feeCollector = s.feeCollector ∧
    s'.paused = s.paused ∧
    s'.supportedTokens = s.supportedTokens ∧
    s'.disputeReasons = s.disputeReasons ∧
    s'.invoices invoiceId =
      some { inv with status := InvoiceStatus.Completed, paidAt := now } ∧
    (∀ j, j ≠ invoiceId → s'.invoices j = s.invoices j) ∧
    s'.escrowBalances invoiceId = 0 ∧
    (∀ j, j ≠ invoiceId → s'.escrowBalances j = s.escrowBalances j) ∧
    (∀ t, s'.held t = s.held t) := by
  obtain ⟨inv', hinv', _hst', hpos, _hle, hnid, how, hfc, hpa, hsup, hdr, _hpi, _hci,
    hinvid, hothers, hesc0, hescj, hheld⟩ := releaseFunds_ok_elim _ _ _ h
  have hinvP : (makePaymentCommit s inv invoiceId now pa).invoices invoiceId =
      some { inv with status := InvoiceStatus.Approved, paidAt := now } := by
    simp [makePaymentCommit, upd, hreq]
  rw [hinvP] at hinv'
  injection hinv' with hinv'
  subst hinv'
  have hpa0 : (makePaymentCommit s inv invoiceId now pa).escrowBalances invoiceId = pa := by
    simp [makePaymentCommit, upd]
  rw [hpa0] at hpos hheld
  refine ⟨hpos, hnid, how, hfc, hpa, hsup, hdr, hinvid, ?_, hesc0, ?_, ?_⟩
  · intro j hj
    rw [hothers j hj]
    simp [makePaymentCommit, upd, hj]
  · intro j hj
    rw [hescj j hj]
    simp [makePaymentCommit, upd, hj]
  · intro t
    rw [congrFun hheld t]
    have hfee := fee_le pa
    by_cases ht : t = inv.token
    · subst ht
      simp [makePaymentCommit, upd]
      omega
    · simp [makePaymentCommit, upd, ht]

/-- A successful `makePayment` came from the client paying a live
`Created` invoice on time with exactly the (possibly discounted) payment
amount; it either parks the payment in escrow with status `Paid` (when
approval is required) or auto-settles to `Completed` with zero balance
(the transient `Approved` write is immediately consumed by
`_releaseFunds` in the same call). -/
theorem makePayment_ok_elim (s : EscrowState) (sender now msgValue invoiceId : Nat)
    (s' : EscrowState) (h : makePayment s sender now msgValue invoiceId = .ok s') :
    ∃ inv, s.invoices invoiceId = some inv ∧
      s.paused = false ∧
      inv.client = sender ∧
      inv.status = InvoiceStatus.Created ∧
      now ≤ inv.dueDate ∧
      (inv.token = 0 → msgValue = requiredPayment inv now) ∧
      (inv.token ≠ 0 → msgValue = 0) ∧
      s'.nextInvoiceId = s.nextInvoiceId ∧
      s'.owner = s.owner ∧
      s'.feeCollector = s.feeCollector ∧
      s'.paused = s.paused ∧
      s'.supportedTokens = s.supportedTokens ∧
      s'.disputeReasons = s.disputeReasons ∧
      (∀ j, j ≠ invoiceId → s'.invoices j = s.invoices j) ∧
      (∀ j, j ≠ invoiceId → s'.escrowBalances j = s.escrowBalances j) ∧
      ((inv.terms.requiresApproval = true ∧
          s'.invoices invoiceId =
            some { inv with status := InvoiceStatus.Paid, paidAt := now } ∧
          s'.escrowBalances invoiceId = requiredPayment inv now ∧
          s'.held = upd s.held inv.token (s.held inv.token + requiredPayment inv now)) ∨
       (inv.terms.requiresApproval = false ∧
          0 < requiredPayment inv now ∧
          s'.invoices invoiceId =
            some { inv with status := InvoiceStatus.Completed, paidAt := now } ∧
          s'.escrowBalances invoiceId = 0 ∧
          (∀ t, s'.held t = s.held t))) := by
  unfold makePayment at h
  split at h
  · exact Except.noConfusion h
  rename_i hpause
  cases hinv : s.invoices invoiceId with
  | none => rw [hinv] at h; exact Except.noConfusion h
  | some inv =>
    rw [hinv] at h
    dsimp only at h
    split at h
    · exact Except.noConfusion h
    rename_i hclient
    split at h
    · exact Except.noConfusion h
    rename_i hstatus
    split at h
    · exact Except.noConfusion h
    rename_i hdue
    refine ⟨inv, rfl, by simpa using hpause, by simpa using hclient,
      by simpa using hstatus, Nat.le_of_not_lt hdue, ?_⟩
    split at h
    · -- native token
      rename_i htok
      split at h
      · exact Except.noConfusion h
      rename_i hmsg
      refine ⟨fun _ => by simpa using hmsg, fun hc => absurd htok hc, ?_⟩
      split at h
      · rename_i hreq
        injection h with h
        subst h
        refine ⟨rfl, rfl, rfl, rfl, rfl, rfl, ?_, ?_, Or.inl ⟨hreq, ?_, ?_, rfl⟩⟩
        · intro j hj; simp [makePaymentCommit, upd, hj]
        · intro j hj; simp [makePaymentCommit, upd, hj]
        · simp [makePaymentCommit, upd, hreq]
        · simp [makePaymentCommit, upd]
      · rename_i hreq
        obtain ⟨hpos, hnid, how, hfc, hpa, hsup, hdr, hinvid, hothers, hesc0, hescj, hheld⟩ :=
          commit_release_elim s inv invoiceId now (requiredPayment inv now) hinv
            (by simpa using hreq) s' h
        exact ⟨hnid, how, hfc, hpa, hsup, hdr, hothers, hescj,
          Or.inr ⟨by simpa using hreq, hpos, hinvid, hesc0, hheld⟩⟩
    · -- ERC20 token
      rename_i htok
      split at h
      · exact Except.noConfusion h
      rename_i hmsg
      refine ⟨fun hc => absurd hc htok, fun _ => by simpa using hmsg, ?_⟩
      split at h
      · rename_i hreq
        injection h with h
        subst h
        refine ⟨rfl, rfl, rfl, rfl, rfl, rfl, ?_, ?_, Or.inl ⟨hreq, ?_, ?_, rfl⟩⟩
        · intro j hj; simp [makePaymentCommit, upd, hj]
        · intro j hj; simp [makePaymentCommit, upd, hj]
        · simp [makePaymentCommit, upd, hreq]
        · simp [makePaymentCommit, upd]
      · rename_i hreq
        obtain ⟨hpos, hnid, how, hfc, hpa, hsup, hdr, hinvid, hothers, hesc0, hescj, hheld⟩ :=
          commit_release_elim s inv invoiceId now (requiredPayment inv now) hinv
            (by simpa using hreq) s' h
        exact ⟨hnid, how, hfc, hpa, hsup, hdr, hothers, hescj,
          Or.inr ⟨by simpa using hreq, hpos, hinvid, hesc0, hheld⟩⟩

/-- A successful `approveInvoice` came from the client approving a
`Paid` invoice that requires approval, and settled it within the same
call: status `Completed`, balance zeroed, holdings down by the full
balance. -/
theorem approveInvoice_ok_elim (s : EscrowState) (sender now invoiceId : Nat)
    (s' : EscrowState) (h : approveInvoice s sender now invoiceId = .ok s') :
    ∃ inv, s.invoices invoiceId = some inv ∧
      s.paused = false ∧
      inv.client = sender ∧
      inv.status = InvoiceStatus.Paid ∧
      inv.terms.requiresApproval = true ∧
      0 < s.escrowBalances invoiceId ∧
      s.escrowBalances invoiceId ≤ s.held inv.token ∧
      s'.nextInvoiceId = s.nextInvoiceId ∧
      s'.owner = s.owner ∧
      s'.feeCollector = s.feeCollector ∧
      s'.paused = s.paused ∧
      s'.supportedTokens = s.supportedTokens ∧
      s'.disputeReasons = s.disputeReasons ∧
      (∀ j, j ≠ invoiceId → s'.invoices j = s.invoices j) ∧
      (∀ j, j ≠ invoiceId → s'.escrowBalances j = s.escrowBalances j) ∧
      s'.invoices invoiceId = some { inv with status := InvoiceStatus.Completed } ∧
      s'.escrowBalances invoiceId = 0 ∧
      s'.held = upd s.held inv.token
        (s.held inv.token - s.escrowBalances invoiceId) := by
  unfold approveInvoice at h
  split at h
  · exact Except.noConfusion h
  rename_i hpause
  cases hinv : s.invoices invoiceId with
  | none => rw [hinv] at h; exact Except.noConfusion h
  | some inv =>
    rw [hinv] at h
    dsimp only at h
    split at h
    · exact Except.noConfusion h
    rename_i hclient
    split at h
    · exact Except.noConfusion h
    rename_i hstatus
    split at h
    · exact Except.noConfusion h
    rename_i hreq
    obtain ⟨inv', hinv', _hst', hpos, hle, hnid, how, hfc, hpa, hsup, hdr, _hpi, _hci,
      hinvid, hothers, hesc0, hescj, hheld⟩ := releaseFunds_ok_elim _ _ _ h
    have hinv2 : some { inv with status := InvoiceStatus.Approved } = some inv' := by
      rw [← hinv']
      simp [upd]
    injection hinv2 with hinv2
    subst hinv2
    refine ⟨inv, rfl, by simpa using hpause, by simpa using hclient, by simpa using hstatus,
      by simpa using hreq, hpos, by simpa using hle, hnid, how, hfc, hpa, hsup, hdr,
      ?_, ?_, by simpa using hinvid, hesc0, ?_⟩
    · intro j hj
      rw [hothers j hj]
      simp [upd, hj]
    · intro j hj
      exact hescj j hj
    · rw [hheld]
      have hfee := fee_le (s.escrowBalances invoiceId)
      funext t
      by_cases ht : t = inv.token
      · subst ht
        simp [upd]
        omega
      · simp [upd, ht]

/-- A successful `raiseDispute` came from the provider or client
disputing a `Paid` or `Approved` invoice with a non-empty reason, and
only flipped the status to `Disputed` and stored the reason. -/
theorem raiseDispute_ok_elim (s : EscrowState) (sender now invoiceId : Nat) (reason : String)
    (s' : EscrowState) (h : raiseDispute s sender now invoiceId reason = .ok s') :
    ∃ inv, s.invoices invoiceId = some inv ∧
      s.paused = false ∧
      (inv.provider = sender ∨ inv.client = sender) ∧
      (inv.status = InvoiceStatus.Paid ∨ inv.status = InvoiceStatus.Approved) ∧
      reason ≠ "" ∧
      s'.nextInvoiceId = s.nextInvoiceId ∧
      s'.owner = s.owner ∧
      s'.feeCollector = s.feeCollector ∧
      s'.paused = s.paused ∧
      s'.supportedTokens = s.supportedTokens ∧
      s'.escrowBalances = s.escrowBalances ∧
      s'.held = s.held ∧
      s'.invoices invoiceId = some { inv with status := InvoiceStatus.Disputed } ∧
      (∀ j, j ≠ invoiceId → s'.invoices j = s.invoices j) ∧
      s'.disputeReasons invoiceId = reason ∧
      (∀ j, j ≠ invoiceId → s'.disputeReasons j = s.disputeReasons j) := by
  unfold raiseDispute at h
  split at h
  · exact Except.noConfusion h
  rename_i hpause
  cases hinv : s.invoices invoiceId with
  | none => rw [hinv] at h; exact Except.noConfusion h
  | some inv =>
    rw [hinv] at h
    dsimp only at h
    split at h
    · exact Except.noConfusion h
    rename_i hrole
    split at h
    · exact Except.noConfusion h
    rename_i hstatus
    split at h
    · exact Except.noConfusion h
    rename_i hreason
    injection h with h
    subst h
    refine ⟨inv, rfl, by simpa using hpause, by simpa [or_iff_not_imp_left] using hrole, by simpa [or_iff_not_imp_left] using hstatus,
      ?_, rfl, rfl, rfl, rfl, rfl, rfl, rfl, ?_, ?_, ?_, ?_⟩
    · intro hc
      subst hc
      simp at hreason
    · simp [upd]
    · intro j hj; simp [upd, hj]
    · simp [upd]
    · intro j hj; simp [upd, hj]

/-- A successful `cancelInvoice` came from the provider cancelling a
still-`Created` invoice, and only flipped its status to `Cancelled`. -/
theorem cancelInvoice_ok_elim (s : EscrowState) (sender now invoiceId : Nat)
    (s' : EscrowState) (h : cancelInvoice s sender now invoiceId = .ok s') :
    ∃ inv, s.invoices invoiceId = some inv ∧
      s.paused = false ∧
      inv.provider = sender ∧
      inv.status = InvoiceStatus.Created ∧
      s'.nextInvoiceId = s.nextInvoiceId ∧
      s'.owner = s.owner ∧
      s'.feeCollector = s.feeCollector ∧
      s'.paused = s.paused ∧
      s'.supportedTokens = s.supportedTokens ∧
      s'.escrowBalances = s.escrowBalances ∧
      s'.disputeReasons = s.disputeReasons ∧
      s'.held = s.held ∧
      s'.invoices invoiceId = some { inv with status := InvoiceStatus.Cancelled } ∧
      (∀ j, j ≠ invoiceId → s'.invoices j = s.invoices j) := by
  unfold cancelInvoice at h
  split at h
  · exact Except.noConfusion h
  rename_i hpause
  cases hinv : s.invoices invoiceId with
  | none => rw [hinv] at h; exact Except.noConfusion h
  | some inv =>
    rw [hinv] at h
    dsimp only at h
    split at h
    · exact Except.noConfusion h
    rename_i hprov
    split at h
    · exact Except.noConfusion h
    rename_i hstatus
    injection h with h
    subst h
    refine ⟨inv, rfl, by simpa using hpause, by simpa using hprov, by simpa using hstatus,
      rfl, rfl, rfl, rfl, rfl, rfl, rfl, rfl, ?_, ?_⟩
    · simp [upd]
    · intro j hj; simp [upd, hj]

/-- A successful `resolveDispute` came from the arbitrator or the owner
resolving a `Disputed` invoice with positive, fully-held escrow: the
balance is zeroed, the status becomes `Completed` (favor provider) or
`Refunded` (favor client), and the holdings drop by the full balance. -/
theorem resolveDispute_ok_elim (s : EscrowState) (sender now invoiceId : Nat) (favor : Bool)
    (s' : EscrowState) (h : resolveDispute s sender now invoiceId favor = .ok s') :
    ∃ inv, s.invoices invoiceId = some inv ∧
      s.paused = false ∧
      inv.status = InvoiceStatus.Disputed ∧
      (sender = inv.terms.arbitrator ∨ sender = s.owner) ∧
      0 < s.escrowBalances invoiceId ∧
      s.escrowBalances invoiceId ≤ s.held inv.token ∧
      s'.nextInvoiceId = s.nextInvoiceId ∧
      s'.owner = s.owner ∧
      s'.feeCollector = s.feeCollector ∧
      s'.paused = s.paused ∧
      s'.supportedTokens = s.supportedTokens ∧
      s'.disputeReasons = s.disputeReasons ∧
      (∀ j, j ≠ invoiceId → s'.invoices j = s.invoices j) ∧
      (∀ j, j ≠ invoiceId → s'.escrowBalances j = s.escrowBalances j) ∧
      s'.escrowBalances invoiceId = 0 ∧
      s'.invoices invoiceId = some { inv with status :=
        if favor then InvoiceStatus.Completed else InvoiceStatus.Refunded } ∧
      s'.held = upd s.held inv.token
        (s.held inv.token - s.escrowBalances invoiceId) := by
  unfold resolveDispute resolveDisputeEffs at h
  split at h
  · exact Except.noConfusion h
  rename_i hpause
  cases hinv : s.invoices invoiceId with
  | none => rw [hinv] at h; exact Except.noConfusion h
  | some inv =>
    rw [hinv] at h
    dsimp only at h
    split at h
    · exact Except.noConfusion h
    rename_i hstatus
    split at h
    · exact Except.noConfusion h
    rename_i hauth
    split at h
    · exact Except.noConfusion h
    rename_i hzero
    split at h
    · exact Except.noConfusion h
    rename_i hheld
    have hfee := fee_le (s.escrowBalances invoiceId)
    split at h
    · rename_i hfavor
      simp only [Except.map, applyEffs, List.cons_append, List.nil_append,
        List.foldl, applyEff] at h
      injection h with h
      subst h
      refine ⟨inv, rfl, by simpa using hpause, by simpa using hstatus, by simpa [or_iff_not_imp_left] using hauth,
        Nat.pos_of_ne_zero hzero, Nat.le_of_not_lt hheld, rfl, rfl, rfl, rfl, rfl, rfl,
        ?_, ?_, ?_, ?_, ?_⟩
      · intro j hj; simp [upd, hj, hinv]
      · intro j hj; simp [upd, hj]
      · simp [upd]
      · simp [upd, hinv, hfavor]
      · funext t
        by_cases ht : t = inv.token
        · subst ht
          simp [upd]
          omega
        · simp [upd, ht]
    · rename_i hfavor
      simp only [Except.map, applyEffs, List.cons_append, List.nil_append,
        List.foldl, applyEff] at h
      injection h with h
      subst h
      refine ⟨inv, rfl, by simpa using hpause, by simpa using hstatus, by simpa [or_iff_not_imp_left] using hauth,
        Nat.pos_of_ne_zero hzero, Nat.le_of_not_lt hheld, rfl, rfl, rfl, rfl, rfl, rfl,
        ?_, ?_, ?_, ?_, ?_⟩
      · intro j hj; simp [upd, hj, hinv]
      · intro j hj; simp [upd, hj]
      · simp [upd]
      · simp [upd, hinv, hfavor]
      · funext t
        by_cases ht : t = inv.token
        · subst ht
          simp [upd]
        · simp [upd, ht]

/-- A successful `createInvoice` appended a fresh `Created` invoice at
id `nextInvoiceId` with the derived due date and early-payment deadline,
incremented `nextInvoiceId`, and changed no balance, reason or holding. -/
theorem createInvoice_ok_elim (s : EscrowState) (sender now client amount token : Nat)
    (terms : PaymentTerms) (ipfsHash : String) (s' : EscrowState)
    (h : createInvoice s sender now client amount token terms ipfsHash = .ok s') :
    s.paused = false ∧
    0 < amount ∧
    terms.earlyPaymentDiscountBps ≤ MAX_EARLY_DISCOUNT_BPS ∧
    s'.nextInvoiceId = s.nextInvoiceId + 1 ∧
    s'.owner = s.owner ∧
    s'.feeCollector = s.feeCollector ∧
    s'.paused = s.paused ∧
    s'.supportedTokens = s.supportedTokens ∧
    s'.escrowBalances = s.escrowBalances ∧
    s'.disputeReasons = s.disputeReasons ∧
    s'.held = s.held ∧
    (∀ j, j ≠ s.nextInvoiceId → s'.invoices j = s.invoices j) ∧
    s'.invoices s.nextInvoiceId = some
      { id := s.nextInvoiceId
        provider := sender
        client := client
        amount := amount
        token := token
        terms :=
          { paymentWindow := terms.paymentWindow
            earlyPaymentDiscountBps := terms.earlyPaymentDiscountBps
            earlyPaymentDeadline :=
              if 0 < terms.earlyPaymentDiscountBps then now + terms.paymentWindow / 2 else 0
            requiresApproval := terms.requiresApproval
            arbitrator := terms.arbitrator }
        status := InvoiceStatus.Created
        createdAt := now
        dueDate := now + terms.paymentWindow
        paidAt := 0
        ipfsHash := ipfsHash } := by
  unfold createInvoice at h
  split at h
  · exact Except.noConfusion h
  split at h
  · exact Except.noConfusion h
  split at h
  · exact Except.noConfusion h
  split at h
  · exact Except.noConfusion h
  split at h
  · exact Except.noConfusion h
  split at h
  · exact Except.noConfusion h
  split at h
  · exact Except.noConfusion h
  split at h
  · exact Except.noConfusion h
  rename_i hpause hclient0 hclientsender hamount htoken hwindow hbps hhash
  injection h with h
  subst h
  refine ⟨by simpa using hpause, Nat.pos_of_ne_zero hamount, Nat.le_of_not_lt hbps,
    rfl, rfl, rfl, rfl, rfl, rfl, rfl, rfl, ?_, ?_⟩
  · intro j hj; simp [upd, hj]
  · simp [upd]

/-! ### The reachability invariant -/


/-- The invariant only depends on these four components. -/
theorem inv_congr (s s' : EscrowState)
    (hn : s'.nextInvoiceId = s.nextInvoiceId)
    (hi : s'.invoices = s.invoices)
    (he : s'.escrowBalances = s.escrowBalances)
    (hd : s'.disputeReasons = s.disputeReasons)
    (hs : EscrowInv s) : EscrowInv s' := by
  constructor
  · intro i h; rw [hi]; exact hs.fresh i (hn ▸ h)
  · intro i h; rw [he]; exact hs.freshEscrow i (hi ▸ h)
  · intro i h; rw [hd]; exact hs.freshReason i (hi ▸ h)
  · intro i inv h; exact hs.noApproved i inv (hi ▸ h)
  · intro i inv h h1 h2 h3; rw [he]; exact hs.escrowZero i inv (hi ▸ h) h1 h2 h3
  · intro i h; rw [hi]; exact hs.reasonStatus i (hd ▸ h)

/-- A freshly deployed contract satisfies the invariant. -/
theorem inv_init (deployer feeCollector : Nat) : EscrowInv (initState deployer feeCollector) := by
  constructor
  · intro i _; rfl
  · intro i _; rfl
  · intro i _; rfl
  · intro i inv h; exact absurd h (by simp [initState])
  · intro i inv h; exact absurd h (by simp [initState])
  · intro i h; exact absurd rfl h

/-- Every successful call preserves the invariant. -/
theorem inv_step (s s' : EscrowState) (sender now : Nat) (op : Op) (hs : EscrowInv s)
    (h : step s sender now op = .ok s') : EscrowInv s' := by
  cases op with
  | createInvoice client amount token terms ipfsHash =>
    obtain ⟨hpause, hamount, hbps, hnid, how, hfc, hpa, hsup, hesc, hdr, hheld,
      hothers, hnew⟩ := createInvoice_ok_elim _ _ _ _ _ _ _ _ _ h
    have hidlt : ∀ i, s'.nextInvoiceId ≤ i → i ≠ s.nextInvoiceId := by
      intro i hi; omega
    constructor
    · intro i hi
      rw [hothers i (hidlt i hi)]
      exact hs.fresh i (by omega)
    · intro i hi
      rw [hesc]
      by_cases hi' : i = s.nextInvoiceId
      · subst hi'
        exact hs.freshEscrow _ (hs.fresh _ (le_refl _))
      · exact hs.freshEscrow i (by rw [← hothers i hi']; exact hi)
    · intro i hi
      rw [hdr]
      by_cases hi' : i = s.nextInvoiceId
      · subst hi'
        exact hs.freshReason _ (hs.fresh _ (le_refl _))
      · exact hs.freshReason i (by rw [← hothers i hi']; exact hi)
    · intro i inv hi
      by_cases hi' : i = s.nextInvoiceId
      · subst hi'
        rw [hnew] at hi
        injection hi with hi
        subst hi
        simp
      · rw [hothers i hi'] at hi
        exact hs.noApproved i inv hi
    · intro i inv hi h1 h2 h3
      rw [hesc]
      by_cases hi' : i = s.nextInvoiceId
      · subst hi'
        exact hs.freshEscrow _ (hs.fresh _ (le_refl _))
      · rw [hothers i hi'] at hi
        exact hs.escrowZero i inv hi h1 h2 h3
    · intro i hi
      rw [hdr] at hi
      by_cases hi' : i = s.nextInvoiceId
      · subst hi'
        exact absurd (hs.freshReason _ (hs.fresh _ (le_refl _))) hi
      · obtain ⟨inv, hinv, hst⟩ := hs.reasonStatus i hi
        exact ⟨inv, by rw [hothers i hi']; exact hinv, hst⟩
  | makePayment msgValue invoiceId =>
    obtain ⟨inv, hinv, hpause, hclient, hstatus, hdue, _hv0, _hvt, hnid, how, hfc, hpa,
      hsup, hdr, hothers, hescj, hcase⟩ := makePayment_ok_elim _ _ _ _ _ _ h
    have hesc0 : s.escrowBalances invoiceId = 0 :=
      hs.escrowZero invoiceId inv hinv (by rw [hstatus]; simp) (by rw [hstatus]; simp)
        (by rw [hstatus]; simp)
    have hreason : s.disputeReasons invoiceId = "" := by
      by_contra hr
      obtain ⟨inv2, hinv2, hst2⟩ := hs.reasonStatus invoiceId hr
      rw [hinv] at hinv2
      injection hinv2 with hinv2
      subst hinv2
      rw [hstatus] at hst2
      rcases hst2 with h' | h' | h' <;> exact InvoiceStatus.noConfusion h'
    constructor
    · intro i hi
      rw [hnid] at hi
      have hne : i ≠ invoiceId := by
        intro he
        subst he
        rw [hs.fresh i hi] at hinv
        exact Option.noConfusion hinv
      rw [hothers i hne]
      exact hs.fresh i hi
    · intro i hi
      by_cases hi' : i = invoiceId
      · subst hi'
        rcases hcase with ⟨_, hid, _, _⟩ | ⟨_, _, hid, _, _⟩ <;>
          rw [hid] at hi <;> exact Option.noConfusion hi
      · rw [hescj i hi']
        exact hs.freshEscrow i (by rw [← hothers i hi']; exact hi)
    · intro i hi
      rw [hdr]
      by_cases hi' : i = invoiceId
      · subst hi'
        exact hreason
      · exact hs.freshReason i (by rw [← hothers i hi']; exact hi)
    · intro i inv' hi
      by_cases hi' : i = invoiceId
      · subst hi'
        rcases hcase with ⟨_, hid, _, _⟩ | ⟨_, _, hid, _, _⟩ <;>
          rw [hid] at hi <;> injection hi with hi <;> subst hi <;> simp
      · rw [hothers i hi'] at hi
        exact hs.noApproved i inv' hi
    · intro i inv' hi h1 h2 h3
      by_cases hi' : i = invoiceId
      · subst hi'
        rcases hcase with ⟨_, hid, _, _⟩ | ⟨_, _, hid, hz, _⟩
        · rw [hid] at hi
          injection hi with hi
          subst hi
          simp at h1
        · exact hz
      · rw [hescj i hi']
        rw [hothers i hi'] at hi
        exact hs.escrowZero i inv' hi h1 h2 h3
    · intro i hi
      rw [hdr] at hi
      by_cases hi' : i = invoiceId
      · subst hi'
        exact absurd hreason hi
      · obtain ⟨inv2, hinv2, hst2⟩ := hs.reasonStatus i hi
        exact ⟨inv2, by rw [hothers i hi']; exact hinv2, hst2⟩
  | approveInvoice invoiceId =>
    obtain ⟨inv, hinv, hpause, hclient, hstatus, hreq, hpos, hle, hnid, how, hfc, hpa,
      hsup, hdr, hothers, hescj, hid, hesc0, hheld⟩ :=
      approveInvoice_ok_elim s sender now invoiceId s' h
    have hreason : s.disputeReasons invoiceId = "" := by
      by_contra hr
      obtain ⟨inv2, hinv2, hst2⟩ := hs.reasonStatus invoiceId hr
      rw [hinv] at hinv2
      injection hinv2 with hinv2
      subst hinv2
      rw [hstatus] at hst2
      rcases hst2 with h' | h' | h' <;> exact InvoiceStatus.noConfusion h'
    constructor
    · intro i hi
      rw [hnid] at hi
      have hne : i ≠ invoiceId := by
        intro he
        subst he
        rw [hs.fresh i hi] at hinv
        exact Option.noConfusion hinv
      rw [hothers i hne]
      exact hs.fresh i hi
    · intro i hi
      by_cases hi' : i = invoiceId
      · subst hi'
        exact hesc0
      · rw [hescj i hi']
        exact hs.freshEscrow i (by rw [← hothers i hi']; exact hi)
    · intro i hi
      rw [hdr]
      by_cases hi' : i = invoiceId
      · subst hi'
        exact hreason
      · exact hs.freshReason i (by rw [← hothers i hi']; exact hi)
    · intro i inv' hi
      by_cases hi' : i = invoiceId
      · subst hi'
        rw [hid] at hi
        injection hi with hi
        subst hi
        simp
      · rw [hothers i hi'] at hi
        exact hs.noApproved i inv' hi
    · intro i inv' hi h1 h2 h3
      by_cases hi' : i = invoiceId
      · subst hi'
        exact hesc0
      · rw [hescj i hi']
        rw [hothers i hi'] at hi
        exact hs.escrowZero i inv' hi h1 h2 h3
    · intro i hi
      rw [hdr] at hi
      by_cases hi' : i = invoiceId
      · subst hi'
        exact absurd hreason hi
      · obtain ⟨inv2, hinv2, hst2⟩ := hs.reasonStatus i hi
        exact ⟨inv2, by rw [hothers i hi']; exact hinv2, hst2⟩
  | raiseDispute invoiceId reason =>
    obtain ⟨inv, hinv, hpause, hrole, hstatus, hne, hnid, how, hfc, hpa, hsup, hesc,
      hheld, hid, hothers, hdrid, hdrj⟩ :=
      raiseDispute_ok_elim s sender now invoiceId reason s' h
    constructor
    · intro i hi
      rw [hnid] at hi
      have hne' : i ≠ invoiceId := by
        intro he
        subst he
        rw [hs.fresh i hi] at hinv
        exact Option.noConfusion hinv
      rw [hothers i hne']
      exact hs.fresh i hi
    · intro i hi
      rw [hesc]
      by_cases hi' : i = invoiceId
      · subst hi'
        rw [hid] at hi
        exact Option.noConfusion hi
      · exact hs.freshEscrow i (by rw [← hothers i hi']; exact hi)
    · intro i hi
      by_cases hi' : i = invoiceId
      · subst hi'
        rw [hid] at hi
        exact Option.noConfusion hi
      · rw [hdrj i hi']
        exact hs.freshReason i (by rw [← hothers i hi']; exact hi)
    · intro i inv' hi
      by_cases hi' : i = invoiceId
      · subst hi'
        rw [hid] at hi
        injection hi with hi
        subst hi
        simp
      · rw [hothers i hi'] at hi
        exact hs.noApproved i inv' hi
    · intro i inv' hi h1 h2 h3
      rw [hesc]
      by_cases hi' : i = invoiceId
      · subst hi'
        rw [hid] at hi
        injection hi with hi
        subst hi
        simp at h3
      · rw [hothers i hi'] at hi
        exact hs.escrowZero i inv' hi h1 h2 h3
    · intro i hi
      by_cases hi' : i = invoiceId
      · subst hi'
        refine ⟨{ inv with status := InvoiceStatus.Disputed }, hid, Or.inl rfl⟩
      · rw [hdrj i hi'] at hi
        obtain ⟨inv2, hinv2, hst2⟩ := hs.reasonStatus i hi
        exact ⟨inv2, by rw [hothers i hi']; exact hinv2, hst2⟩
  | resolveDispute invoiceId favor =>
    obtain ⟨inv, hinv, hpause, hstatus, hauth, hpos, hle, hnid, how, hfc, hpa, hsup,
      hdr, hothers, hescj, hesc0, hid, hheld⟩ :=
      resolveDispute_ok_elim s sender now invoiceId favor s' h
    constructor
    · intro i hi
      rw [hnid] at hi
      have hne' : i ≠ invoiceId := by
        intro he
        subst he
        rw [hs.fresh i hi] at hinv
        exact Option.noConfusion hinv
      rw [hothers i hne']
      exact hs.fresh i hi
    · intro i hi
      by_cases hi' : i = invoiceId
      · subst hi'
        exact hesc0
      · rw [hescj i hi']
        exact hs.freshEscrow i (by rw [← hothers i hi']; exact hi)
    · intro i hi
      rw [hdr]
      by_cases hi' : i = invoiceId
      · subst hi'
        rw [hid] at hi
        exact Option.noConfusion hi
      · exact hs.freshReason i (by rw [← hothers i hi']; exact hi)
    · intro i inv' hi
      by_cases hi' : i = invoiceId
      · subst hi'
        rw [hid] at hi
        injection hi with hi
        subst hi
        cases favor <;> simp
      · rw [hothers i hi'] at hi
        exact hs.noApproved i inv' hi
    · intro i inv' hi h1 h2 h3
      by_cases hi' : i = invoiceId
      · subst hi'
        exact hesc0
      · rw [hescj i hi']
        rw [hothers i hi'] at hi
        exact hs.escrowZero i inv' hi h1 h2 h3
    · intro i hi
      rw [hdr] at hi
      by_cases hi' : i = invoiceId
      · subst hi'
        refine ⟨{ inv with status :=
          if favor then InvoiceStatus.Completed else InvoiceStatus.Refunded }, hid, ?_⟩
        cases favor <;> simp
      · obtain ⟨inv2, hinv2, hst2⟩ := hs.reasonStatus i hi
        exact ⟨inv2, by rw [hothers i hi']; exact hinv2, hst2⟩
  | cancelInvoice invoiceId =>
    obtain ⟨inv, hinv, hpause, hprov, hstatus, hnid, how, hfc, hpa, hsup, hesc, hdr,
      hheld, hid, hothers⟩ := cancelInvoice_ok_elim s sender now invoiceId s' h
    have hesc0 : s.escrowBalances invoiceId = 0 :=
      hs.escrowZero invoiceId inv hinv (by rw [hstatus]; simp) (by rw [hstatus]; simp)
        (by rw [hstatus]; simp)
    have hreason : s.disputeReasons invoiceId = "" := by
      by_contra hr
      obtain ⟨inv2, hinv2, hst2⟩ := hs.reasonStatus invoiceId hr
      rw [hinv] at hinv2
      injection hinv2 with hinv2
      subst hinv2
      rw [hstatus] at hst2
      rcases hst2 with h' | h' | h' <;> exact InvoiceStatus.noConfusion h'
    constructor
    · intro i hi
      rw [hnid] at hi
      have hne' : i ≠ invoiceId := by
        intro he
        subst he
        rw [hs.fresh i hi] at hinv
        exact Option.noConfusion hinv
      rw [hothers i hne']
      exact hs.fresh i hi
    · intro i hi
      rw [hesc]
      by_cases hi' : i = invoiceId
      · subst hi'
        exact hesc0
      · exact hs.freshEscrow i (by rw [← hothers i hi']; exact hi)
    · intro i hi
      rw [hdr]
      by_cases hi' : i = invoiceId
      · subst hi'
        exact hreason
      · exact hs.freshReason i (by rw [← hothers i hi']; exact hi)
    · intro i inv' hi
      by_cases hi' : i = invoiceId
      · subst hi'
        rw [hid] at hi
        injection hi with hi
        subst hi
        simp
      · rw [hothers i hi'] at hi
        exact hs.noApproved i inv' hi
    · intro i inv' hi h1 h2 h3
      rw [hesc]
      by_cases hi' : i = invoiceId
      · subst hi'
        exact hesc0
      · rw [hothers i hi'] at hi
        exact hs.escrowZero i inv' hi h1 h2 h3
    · intro i hi
      rw [hdr] at hi
      by_cases hi' : i = invoiceId
      · subst hi'
        exact absurd hreason hi
      · obtain ⟨inv2, hinv2, hst2⟩ := hs.reasonStatus i hi
        exact ⟨inv2, by rw [hothers i hi']; exact hinv2, hst2⟩
  | addSupportedToken token =>
    simp only [step] at h
    unfold addSupportedToken at h
    split at h
    · exact Except.noConfusion h
    injection h with h
    subst h
    exact inv_congr s _ rfl rfl rfl rfl hs
  | removeSupportedToken token =>
    simp only [step] at h
    unfold removeSupportedToken at h
    split at h
    · exact Except.noConfusion h
    injection h with h
    subst h
    exact inv_congr s _ rfl rfl rfl rfl hs
  | setFeeCollector collector =>
    simp only [step] at h
    unfold setFeeCollector at h
    split at h
    · exact Except.noConfusion h
    split at h
    · exact Except.noConfusion h
    injection h with h
    subst h
    exact inv_congr s _ rfl rfl rfl rfl hs
  | pause =>
    simp only [step] at h
    unfold pause at h
    split at h
    · exact Except.noConfusion h
    split at h
    · exact Except.noConfusion h
    injection h with h
    subst h
    exact inv_congr s _ rfl rfl rfl rfl hs
  | unpause =>
    simp only [step] at h
    unfold unpause at h
    split at h
    · exact Except.noConfusion h
    split at h
    · exact Except.noConfusion h
    injection h with h
    subst h
    exact inv_congr s _ rfl rfl rfl rfl hs
  | emergencyWithdraw token amount =>
    simp only [step] at h
    unfold emergencyWithdraw at h
    split at h
    · exact Except.noConfusion h
    split at h
    · exact Except.noConfusion h
    injection h with h
    subst h
    exact inv_congr s _ rfl rfl rfl rfl hs
  | depositStray token amount =>
    simp only [step] at h
    unfold depositStray at h
    injection h with h
    subst h
    exact inv_congr s _ rfl rfl rfl rfl hs

/-- Every reachable state satisfies the invariant. -/
theorem reachable_inv (s : EscrowState) (h : Reachable s) : EscrowInv s := by
  induction h with
  | init deployer feeCollector hfc => exact inv_init deployer feeCollector
  | step sender now op _ hstep ih => exact inv_step _ _ sender now op ih hstep


/-! ### Reachability of the scenario states -/

theorem reachable_sBase : Reachable sBase := Reachable.init 900 901 (by decide)

theorem reachable_sA1 : Reachable sA1 :=
  Reachable.step 100 1000 (Op.createInvoice 200 1000 0 termsA "Qm") reachable_sBase rfl

theorem reachable_sA2 : Reachable sA2 :=
  Reachable.step 200 2000 (Op.makePayment 950 1) reachable_sA1 rfl

theorem reachable_sA3 : Reachable sA3 :=
  Reachable.step 200 3000 (Op.raiseDispute 1 "late") reachable_sA2 rfl

theorem reachable_sA4 : Reachable sA4 :=
  Reachable.step 300 4000 (Op.resolveDispute 1 false) reachable_sA3 rfl

theorem reachable_sB : Reachable sB :=
  Reachable.step 900 5000 (Op.emergencyWithdraw 0 950) reachable_sA2 rfl

theorem reachable_sC1 : Reachable sC1 :=
  Reachable.step 100 1000 (Op.createInvoice 200 1000 0 termsC "Qm") reachable_sBase rfl

theorem reachable_sC2 : Reachable sC2 :=
  Reachable.step 200 2000 (Op.makePayment 950 1) reachable_sC1 rfl

/-! ### Coverage accounting -/

theorem sumEscrow_congr (s s' : EscrowState) (t : Nat)
    (hn : s'.nextInvoiceId = s.nextInvoiceId)
    (hsame : ∀ i, i < s.nextInvoiceId →
      escrowContribution s' t i = escrowContribution s t i) :
    sumEscrow s' t = sumEscrow s t := by
  unfold sumEscrow
  rw [hn]
  exact Finset.sum_congr rfl (fun i hi => hsame i (Finset.mem_range.mp hi))

theorem sumEscrow_single (s s' : EscrowState) (t invoiceId : Nat)
    (hn : s'.nextInvoiceId = s.nextInvoiceId) (hlt : invoiceId < s.nextInvoiceId)
    (hsame : ∀ i, i < s.nextInvoiceId → i ≠ invoiceId →
      escrowContribution s' t i = escrowContribution s t i) :
    sumEscrow s' t + escrowContribution s t invoiceId =
      sumEscrow s t + escrowContribution s' t invoiceId := by
  unfold sumEscrow
  rw [hn]
  have hmem : invoiceId ∈ Finset.range s.nextInvoiceId := Finset.mem_range.mpr hlt
  have h1 : escrowContribution s t invoiceId +
      Finset.sum ((Finset.range s.nextInvoiceId).erase invoiceId)
        (fun x => escrowContribution s t x) =
      Finset.sum (Finset.range s.nextInvoiceId) (escrowContribution s t) :=
    Finset.add_sum_erase _ _ hmem
  have h2 : escrowContribution s' t invoiceId +
      Finset.sum ((Finset.range s.nextInvoiceId).erase invoiceId)
        (fun x => escrowContribution s' t x) =
      Finset.sum (Finset.range s.nextInvoiceId) (escrowContribution s' t) :=
    Finset.add_sum_erase _ _ hmem
  have hrest : Finset.sum ((Finset.range s.nextInvoiceId).erase invoiceId)
        (fun x => escrowContribution s' t x) =
      Finset.sum ((Finset.range s.nextInvoiceId).erase invoiceId)
        (fun x => escrowContribution s t x) := by
    refine Finset.sum_congr rfl (fun i hi => ?_)
    have hi' := Finset.mem_erase.mp hi
    exact hsame i (Finset.mem_range.mp hi'.2) hi'.1
  rw [hrest] at h2
  omega

/-- Every successful call other than `emergencyWithdraw` keeps the
tracked escrow totals coverable by the holdings. -/
theorem covered_step (s : EscrowState) (hs : EscrowInv s) (sender now : Nat) (op : Op)
    (s' : EscrowState) (hok : step s sender now op = .ok s')
    (hnw : ∀ token amount, op ≠ Op.emergencyWithdraw token amount)
    (hcov : covered s) : covered s' := by
  cases op with
  | createInvoice client amount token terms ipfsHash =>
    obtain ⟨hpause, hamount, hbps, hnid, how, hfc, hpa, hsup, hesc, hdr, hheld,
      hothers, hnew⟩ := createInvoice_ok_elim _ _ _ _ _ _ _ _ _ hok
    intro t
    have hsum : sumEscrow s' t = sumEscrow s t := by
      unfold sumEscrow
      rw [hnid, Finset.sum_range_succ]
      have h0 : escrowContribution s' t s.nextInvoiceId = 0 := by
        unfold escrowContribution
        rw [hnew]
        have hz : s'.escrowBalances s.nextInvoiceId = 0 := by
          rw [hesc]
          exact hs.freshEscrow _ (hs.fresh _ (le_refl _))
        rw [hz]
        simp
      rw [h0, Nat.add_zero]
      refine Finset.sum_congr rfl (fun i hi => ?_)
      have hi' := Finset.mem_range.mp hi
      unfold escrowContribution
      rw [hothers i (by omega), hesc]
    rw [hsum, hheld]
    exact hcov t
  | makePayment msgValue invoiceId =>
    obtain ⟨inv, hinv, hpause, hclient, hstatus, hdue, _hv0, _hvt, hnid, how, hfc, hpa,
      hsup, hdr, hothers, hescj, hcase⟩ := makePayment_ok_elim _ _ _ _ _ _ hok
    have hlt : invoiceId < s.nextInvoiceId := by
      by_contra hge
      rw [hs.fresh invoiceId (Nat.le_of_not_lt hge)] at hinv
      exact Option.noConfusion hinv
    intro t
    have hold0 : escrowContribution s t invoiceId = 0 := by
      unfold escrowContribution
      rw [hinv]
      have hz : s.escrowBalances invoiceId = 0 :=
        hs.escrowZero invoiceId inv hinv (by rw [hstatus]; simp) (by rw [hstatus]; simp)
          (by rw [hstatus]; simp)
      rw [hz]
      simp
    rcases hcase with ⟨hreq, hid, hescid, hheld⟩ | ⟨hreq, hpos, hid, hescid, hheld⟩
    · have hstep := sumEscrow_single s s' t invoiceId hnid hlt (fun i _ hne => by
        unfold escrowContribution
        rw [hothers i hne, hescj i hne])
      have hnewc : escrowContribution s' t invoiceId =
          if inv.token = t then requiredPayment inv now else 0 := by
        unfold escrowContribution
        rw [hid]
        dsimp only
        rw [hescid]
      rw [hold0, hnewc] at hstep
      have hcovt := hcov t
      by_cases ht : inv.token = t
      · subst ht
        rw [if_pos rfl] at hstep
        rw [congrFun hheld inv.token, upd_self]
        omega
      · rw [if_neg ht] at hstep
        rw [congrFun hheld t, upd_other _ _ _ _ (fun he => ht he.symm)]
        omega
    · have hstep := sumEscrow_single s s' t invoiceId hnid hlt (fun i _ hne => by
        unfold escrowContribution
        rw [hothers i hne, hescj i hne])
      have hnewc : escrowContribution s' t invoiceId = 0 := by
        unfold escrowContribution
        rw [hid]
        dsimp only
        rw [hescid]
        simp
      rw [hold0, hnewc] at hstep
      rw [hheld t]
      have hcovt := hcov t
      omega
  | approveInvoice invoiceId =>
    obtain ⟨inv, hinv, hpause, hclient, hstatus, hreq, hpos, hle, hnid, how, hfc, hpa,
      hsup, hdr, hothers, hescj, hid, hesc0, hheld⟩ :=
      approveInvoice_ok_elim s sender now invoiceId s' hok
    have hlt : invoiceId < s.nextInvoiceId := by
      by_contra hge
      rw [hs.fresh invoiceId (Nat.le_of_not_lt hge)] at hinv
      exact Option.noConfusion hinv
    intro t
    have hstep := sumEscrow_single s s' t invoiceId hnid hlt (fun i _ hne => by
      unfold escrowContribution
      rw [hothers i hne, hescj i hne])
    have hnewc : escrowContribution s' t invoiceId = 0 := by
      unfold escrowContribution
      rw [hid]
      dsimp only
      rw [hesc0]
      simp
    have holdc : escrowContribution s t invoiceId =
        if inv.token = t then s.escrowBalances invoiceId else 0 := by
      unfold escrowContribution
      rw [hinv]
    rw [hnewc, holdc] at hstep
    have hcovt := hcov t
    by_cases ht : inv.token = t
    · subst ht
      rw [if_pos rfl] at hstep
      rw [congrFun hheld inv.token, upd_self]
      omega
    · rw [if_neg ht] at hstep
      rw [congrFun hheld t, upd_other _ _ _ _ (fun he => ht he.symm)]
      omega
  | raiseDispute invoiceId reason =>
    obtain ⟨inv, hinv, hpause, hrole, hstatus, hne, hnid, how, hfc, hpa, hsup, hesc,
      hheld, hid, hothers, hdrid, hdrj⟩ :=
      raiseDispute_ok_elim s sender now invoiceId reason s' hok
    intro t
    have hsum : sumEscrow s' t = sumEscrow s t := by
      refine sumEscrow_congr s s' t hnid (fun i _ => ?_)
      unfold escrowContribution
      by_cases hi' : i = invoiceId
      · subst hi'
        rw [hid, hinv, hesc]
      · rw [hothers i hi', hesc]
    rw [hsum, hheld]
    exact hcov t
  | resolveDispute invoiceId favor =>
    obtain ⟨inv, hinv, hpause, hstatus, hauth, hpos, hle, hnid, how, hfc, hpa, hsup,
      hdr, hothers, hescj, hesc0, hid, hheld⟩ :=
      resolveDispute_ok_elim s sender now invoiceId favor s' hok
    have hlt : invoiceId < s.nextInvoiceId := by
      by_contra hge
      rw [hs.fresh invoiceId (Nat.le_of_not_lt hge)] at hinv
      exact Option.noConfusion hinv
    intro t
    have hstep := sumEscrow_single s s' t invoiceId hnid hlt (fun i _ hne => by
      unfold escrowContribution
      rw [hothers i hne, hescj i hne])
    have hnewc : escrowContribution s' t invoiceId = 0 := by
      unfold escrowContribution
      rw [hid]
      dsimp only
      rw [hesc0]
      simp
    have holdc : escrowContribution s t invoiceId =
        if inv.token = t then s.escrowBalances invoiceId else 0 := by
      unfold escrowContribution
      rw [hinv]
    rw [hnewc, holdc] at hstep
    have hcovt := hcov t
    by_cases ht : inv.token = t
    · subst ht
      rw [if_pos rfl] at hstep
      rw [congrFun hheld inv.token, upd_self]
      omega
    · rw [if_neg ht] at hstep
      rw [congrFun hheld t, upd_other _ _ _ _ (fun he => ht he.symm)]
      omega
  | cancelInvoice invoiceId =>
    obtain ⟨inv, hinv, hpause, hprov, hstatus, hnid, how, hfc, hpa, hsup, hesc, hdr,
      hheld, hid, hothers⟩ := cancelInvoice_ok_elim s sender now invoiceId s' hok
    intro t
    have hsum : sumEscrow s' t = sumEscrow s t := by
      refine sumEscrow_congr s s' t hnid (fun i _ => ?_)
      unfold escrowContribution
      by_cases hi' : i = invoiceId
      · subst hi'
        rw [hid, hinv, hesc]
      · rw [hothers i hi', hesc]
    rw [hsum, hheld]
    exact hcov t
  | addSupportedToken token =>
    simp only [step] at hok
    unfold addSupportedToken at hok
    split at hok
    · exact Except.noConfusion hok
    injection hok with hok
    subst hok
    exact hcov
  | removeSupportedToken token =>
    simp only [step] at hok
    unfold removeSupportedToken at hok
    split at hok
    · exact Except.noConfusion hok
    injection hok with hok
    subst hok
    exact hcov
  | setFeeCollector collector =>
    simp only [step] at hok
    unfold setFeeCollector at hok
    split at hok
    · exact Except.noConfusion hok
    split at hok
    · exact Except.noConfusion hok
    injection hok with hok
    subst hok
    exact hcov
  | pause =>
    simp only [step] at hok
    unfold pause at hok
    split at hok
    · exact Except.noConfusion hok
    split at hok
    · exact Except.noConfusion hok
    injection hok with hok
    subst hok
    exact hcov
  | unpause =>
    simp only [step] at hok
    unfold unpause at hok
    split at hok
    · exact Except.noConfusion hok
    split at hok
    · exact Except.noConfusion hok
    injection hok with hok
    subst hok
    exact hcov
  | emergencyWithdraw token amount =>
    exact absurd rfl (hnw token amount)
  | depositStray token amount =>
    simp only [step] at hok
    unfold depositStray at hok
    injection hok with hok
    subst hok
    intro t
    have h0 := hcov t
    show sumEscrow { s with held := upd s.held token (s.held token + amount) } t ≤
      upd s.held token (s.held token + amount) t
    rw [show sumEscrow { s with held := upd s.held token (s.held token + amount) } t =
      sumEscrow s t from rfl]
    by_cases ht : t = token
    · subst ht
      rw [upd_self]
      omega
    · rw [upd_other _ _ _ _ ht]
      exact h0

/-! ### The claims -/

/-- C1: in every settlement (`_releaseFunds`), the platform fee is
`floor(escrowBalance * 50 / 10000)`, the provider amount is exactly
`escrowBalance - platformFee` (so the two sum back to the balance with
no remainder), and the effect sequence zeroes the escrow balance and
sets status `Completed` strictly before the two outbound transfers are
issued. -/
theorem releaseFunds_fee_split_and_ordering (s : EscrowState) (invoiceId : Nat)
    (effs : List Eff) (h : releaseFundsEffs s invoiceId = .ok effs) :
    ∃ inv, s.invoices invoiceId = some inv ∧
      (s.escrowBalances invoiceId - s.escrowBalances invoiceId * 50 / 10000) +
        s.escrowBalances invoiceId * 50 / 10000 = s.escrowBalances invoiceId ∧
      effs =
        [Eff.setEscrow invoiceId 0, Eff.setStatus invoiceId InvoiceStatus.Completed] ++
        [Eff.transferOut inv.token inv.provider
           (s.escrowBalances invoiceId - s.escrowBalances invoiceId * 50 / 10000),
         Eff.transferOut inv.token s.feeCollector
           (s.escrowBalances invoiceId * 50 / 10000)] := by
  unfold releaseFundsEffs at h
  cases hinv : s.invoices invoiceId with
  | none => rw [hinv] at h; exact Except.noConfusion h
  | some inv =>
    rw [hinv] at h
    dsimp only at h
    split at h
    · exact Except.noConfusion h
    split at h
    · exact Except.noConfusion h
    split at h
    · exact Except.noConfusion h
    injection h with h
    subst h
    exact ⟨inv, rfl, Nat.sub_add_cancel (fee_le _), rfl⟩

/-- C1 witness: releasing the `Approved` invoice of `sW` (balance `950`,
native token) sends `946` to provider `100` and the fee `4` to collector
`901`, after the two storage writes. -/
theorem releaseFunds_fee_split_and_ordering_witness :
    ∃ inv, sW.invoices 1 = some inv ∧
      (sW.escrowBalances 1 - sW.escrowBalances 1 * 50 / 10000) +
        sW.escrowBalances 1 * 50 / 10000 = sW.escrowBalances 1 ∧
      [Eff.setEscrow 1 0, Eff.setStatus 1 InvoiceStatus.Completed,
       Eff.transferOut 0 100 946, Eff.transferOut 0 901 4] =
        [Eff.setEscrow 1 0, Eff.setStatus 1 InvoiceStatus.Completed] ++
        [Eff.transferOut inv.token inv.provider
           (sW.escrowBalances 1 - sW.escrowBalances 1 * 50 / 10000),
         Eff.transferOut inv.token sW.feeCollector
           (sW.escrowBalances 1 * 50 / 10000)] :=
  releaseFunds_fee_split_and_ordering sW 1
    [Eff.setEscrow 1 0, Eff.setStatus 1 InvoiceStatus.Completed,
     Eff.transferOut 0 100 946, Eff.transferOut 0 901 4] (by rfl)

/-- C2: in every reachable state, an invoice whose status is not one of
`Paid`, `Approved`, `Disputed` has escrow balance `0`; in particular the
balance is `0` before payment (`Created`) and after settlement, refund
or cancellation. -/
theorem escrow_zero_outside_active_statuses (s : EscrowState) (h : Reachable s)
    (invoiceId : Nat) (inv : Invoice) (hinv : s.invoices invoiceId = some inv)
    (h1 : inv.status ≠ InvoiceStatus.Paid) (h2 : inv.status ≠ InvoiceStatus.Approved)
    (h3 : inv.status ≠ InvoiceStatus.Disputed) :
    s.escrowBalances invoiceId = 0 :=
  (reachable_inv s h).escrowZero invoiceId inv hinv h1 h2 h3

/-- C2 witness: the refunded invoice of scenario A carries zero escrow. -/
theorem escrow_zero_outside_active_statuses_witness : sA4.escrowBalances 1 = 0 :=
  escrow_zero_outside_active_statuses sA4 reachable_sA4 1 invA4 rfl
    (by decide) (by decide) (by decide)

/-- C3: on an invoice in a terminal status (`Completed`, `Cancelled`,
`Refunded`), each lifecycle operation fails with an invalid-state error
(for the caller that passes its role check; `resolveDispute` checks
status first, so it fails for every caller).  Errors model reverts, so
the state, in particular the invoice's status and escrow balance, is
unchanged. -/
theorem terminal_states_reject_lifecycle_ops (s : EscrowState)
    (sender now msgValue invoiceId : Nat) (reason : String) (favor : Bool)
    (inv : Invoice) (hinv : s.invoices invoiceId = some inv) (hpause : s.paused = false)
    (hterm : inv.status = InvoiceStatus.Completed ∨ inv.status = InvoiceStatus.Cancelled ∨
      inv.status = InvoiceStatus.Refunded) :
    (inv.client = sender →
      makePayment s sender now msgValue invoiceId =
        .error (.invalidState "Invoice cannot be paid")) ∧
    (inv.client = sender →
      approveInvoice s sender now invoiceId =
        .error (.invalidState "Invoice not in paid status")) ∧
    ((inv.provider = sender ∨ inv.client = sender) →
      raiseDispute s sender now invoiceId reason =
        .error (.invalidState "Cannot dispute invoice in current status")) ∧
    (resolveDispute s sender now invoiceId favor =
      .error (.invalidState "Invoice not disputed")) ∧
    (inv.provider = sender →
      cancelInvoice s sender now invoiceId =
        .error (.invalidState "Can only cancel unpaid invoices")) := by
  refine ⟨?_, ?_, ?_, ?_, ?_⟩
  · intro hc
    rcases hterm with hst | hst | hst <;>
      simp [makePayment, hinv, hpause, hc, hst]
  · intro hc
    rcases hterm with hst | hst | hst <;>
      simp [approveInvoice, hinv, hpause, hc, hst]
  · intro hc
    rcases hterm with hst | hst | hst <;>
      rcases hc with hc | hc <;>
        simp [raiseDispute, hinv, hpause, hc, hst]
  · rcases hterm with hst | hst | hst <;>
      simp [resolveDispute, resolveDisputeEffs, Except.map, hinv, hpause, hst]
  · intro hc
    rcases hterm with hst | hst | hst <;>
      simp [cancelInvoice, hinv, hpause, hc, hst]

/-- C3 witness: all five lifecycle operations reject the `Completed`
invoice of scenario C with an invalid-state error. -/
theorem terminal_states_reject_lifecycle_ops_witness :
    (invC2.client = 200 →
      makePayment sC2 200 9000 950 1 =
        .error (.invalidState "Invoice cannot be paid")) ∧
    (invC2.client = 200 →
      approveInvoice sC2 200 9000 1 =
        .error (.invalidState "Invoice not in paid status")) ∧
    ((invC2.provider = 200 ∨ invC2.client = 200) →
      raiseDispute sC2 200 9000 1 "x" =
        .error (.invalidState "Cannot dispute invoice in current status")) ∧
    (resolveDispute sC2 200 9000 1 true =
      .error (.invalidState "Invoice not disputed")) ∧
    (invC2.provider = 200 →
      cancelInvoice sC2 200 9000 1 =
        .error (.invalidState "Can only cancel unpaid invoices")) :=
  terminal_states_reject_lifecycle_ops sC2 200 9000 950 1 "x" true invC2 rfl rfl
    (Or.inl rfl)

/-- C4: with the client calling a `Created` invoice, `makePayment` fails
when `now` is strictly past the due date; and on success the charged
amount is the discounted `amount - floor(amount * discountBps / 10000)`
exactly when a discount is configured and `now` is within the
early-payment deadline, else the full amount (for the native token the
charge is `msg.value`; for an ERC20 token `msg.value` must be `0` and
the charge is pulled by `transferFrom`). -/
theorem makePayment_expiry_and_discount (s : EscrowState)
    (sender now msgValue invoiceId : Nat) (inv : Invoice)
    (hinv : s.invoices invoiceId = some inv) (hpause : s.paused = false)
    (hclient : inv.client = sender) (hstatus : inv.status = InvoiceStatus.Created) :
    (inv.dueDate < now →
      makePayment s sender now msgValue invoiceId =
        .error (.timing "Invoice has expired")) ∧
    (∀ s', makePayment s sender now msgValue invoiceId = .ok s' →
      requiredPayment inv now =
        (if 0 < inv.terms.earlyPaymentDiscountBps ∧
            now ≤ inv.terms.earlyPaymentDeadline then
          inv.amount - inv.amount * inv.terms.earlyPaymentDiscountBps / 10000
         else inv.amount) ∧
      (inv.token = 0 → msgValue = requiredPayment inv now) ∧
      (inv.token ≠ 0 → msgValue = 0)) := by
  constructor
  · intro hdue
    simp [makePayment, hinv, hpause, hclient, hstatus, hdue]
  · intro s' h'
    obtain ⟨inv2, hinv2, _, _, _, _, hv0, hvt, _, _, _, _, _, _, _, _, _⟩ :=
      makePayment_ok_elim _ _ _ _ _ _ h'
    rw [hinv] at hinv2
    injection hinv2 with hinv2
    subst hinv2
    exact ⟨rfl, hv0, hvt⟩

/-- C4 witness: paying scenario A's invoice at time `2000` (within the
early deadline `1297000`) charges `950 = 1000 - floor(1000*500/10000)`. -/
theorem makePayment_expiry_and_discount_witness :
    (invA1.dueDate < 2000 →
      makePayment sA1 200 2000 950 1 = .error (.timing "Invoice has expired")) ∧
    (∀ s', makePayment sA1 200 2000 950 1 = .ok s' →
      requiredPayment invA1 2000 =
        (if 0 < invA1.terms.earlyPaymentDiscountBps ∧
            2000 ≤ invA1.terms.earlyPaymentDeadline then
          invA1.amount - invA1.amount * invA1.terms.earlyPaymentDiscountBps / 10000
         else invA1.amount) ∧
      (invA1.token = 0 → 950 = requiredPayment invA1 2000) ∧
      (invA1.token ≠ 0 → 950 = 0)) :=
  makePayment_expiry_and_discount sA1 200 2000 950 1 invA1 rfl rfl rfl rfl

/-- C5: a successful `makePayment` stores exactly the payment amount in
escrow and stamps `paidAt = now`; with `requiresApproval` the invoice
rests at `Paid`, and without it the transient `Approved` status is
consumed by settlement inside the same call, so the operation ends with
status `Completed` and escrow balance `0`. -/
theorem makePayment_success_postconditions (s : EscrowState)
    (sender now msgValue invoiceId : Nat) (inv : Invoice)
    (hinv : s.invoices invoiceId = some inv) (s' : EscrowState)
    (h : makePayment s sender now msgValue invoiceId = .ok s') :
    (inv.terms.requiresApproval = true →
      s'.escrowBalances invoiceId = requiredPayment inv now ∧
      (s'.invoices invoiceId).map Invoice.status = some InvoiceStatus.Paid ∧
      (s'.invoices invoiceId).map Invoice.paidAt = some now) ∧
    (inv.terms.requiresApproval = false →
      (s'.invoices invoiceId).map Invoice.status = some InvoiceStatus.Completed ∧
      s'.escrowBalances invoiceId = 0 ∧
      (s'.invoices invoiceId).map Invoice.paidAt = some now) := by
  obtain ⟨inv2, hinv2, _, _, _, _, _, _, _, _, _, _, _, _, _, _, hcase⟩ :=
    makePayment_ok_elim _ _ _ _ _ _ h
  rw [hinv] at hinv2
  injection hinv2 with hinv2
  subst hinv2
  constructor
  · intro hreq
    rcases hcase with ⟨_, hid, hesc, _⟩ | ⟨hreqF, _, _, _, _⟩
    · refine ⟨hesc, ?_, ?_⟩ <;> rw [hid] <;> rfl
    · rw [hreq] at hreqF
      exact absurd hreqF (by simp)
  · intro hreq
    rcases hcase with ⟨hreqT, _, _, _⟩ | ⟨_, _, hid, hesc, _⟩
    · rw [hreq] at hreqT
      exact absurd hreqT (by simp)
    · refine ⟨?_, hesc, ?_⟩ <;> rw [hid] <;> rfl

/-- C5 witness: scenario A's payment (approval required) ends `Paid`
with `950` in escrow and `paidAt = 2000`. -/
theorem makePayment_success_postconditions_witness :
    (invA1.terms.requiresApproval = true →
      sA2.escrowBalances 1 = requiredPayment invA1 2000 ∧
      (sA2.invoices 1).map Invoice.status = some InvoiceStatus.Paid ∧
      (sA2.invoices 1).map Invoice.paidAt = some 2000) ∧
    (invA1.terms.requiresApproval = false →
      (sA2.invoices 1).map Invoice.status = some InvoiceStatus.Completed ∧
      sA2.escrowBalances 1 = 0 ∧
      (sA2.invoices 1).map Invoice.paidAt = some 2000) :=
  makePayment_success_postconditions sA1 200 2000 950 1 invA1 rfl sA2 rfl

/-- C6: a successful `resolveDispute` requires the arbitrator or the
contract owner, status `Disputed` and a positive escrow balance; both
branches zero the balance first, then the favor-provider branch sets
`Completed` and pays the settlement fee split, while the refund branch
sets `Refunded` and transfers the full balance to the client. -/
theorem resolveDispute_fee_split_and_refund (s : EscrowState)
    (sender now invoiceId : Nat) (favor : Bool) (effs : List Eff)
    (h : resolveDisputeEffs s sender now invoiceId favor = .ok effs) :
    ∃ inv, s.invoices invoiceId = some inv ∧
      inv.status = InvoiceStatus.Disputed ∧
      (sender = inv.terms.arbitrator ∨ sender = s.owner) ∧
      0 < s.escrowBalances invoiceId ∧
      (favor = true →
        effs =
          [Eff.setEscrow invoiceId 0, Eff.setStatus invoiceId InvoiceStatus.Completed] ++
          [Eff.transferOut inv.token inv.provider
             (s.escrowBalances invoiceId - s.escrowBalances invoiceId * 50 / 10000),
           Eff.transferOut inv.token s.feeCollector
             (s.escrowBalances invoiceId * 50 / 10000)]) ∧
      (favor = false →
        effs =
          [Eff.setEscrow invoiceId 0, Eff.setStatus invoiceId InvoiceStatus.Refunded] ++
          [Eff.transferOut inv.token inv.client (s.escrowBalances invoiceId)]) := by
  unfold resolveDisputeEffs at h
  split at h
  · exact Except.noConfusion h
  rename_i hpause
  cases hinv : s.invoices invoiceId with
  | none => rw [hinv] at h; exact Except.noConfusion h
  | some inv =>
    rw [hinv] at h
    dsimp only at h
    split at h
    · exact Except.noConfusion h
    rename_i hstatus
    split at h
    · exact Except.noConfusion h
    rename_i hauth
    split at h
    · exact Except.noConfusion h
    rename_i hzero
    split at h
    · exact Except.noConfusion h
    split at h
    · rename_i hfavor
      injection h with h
      subst h
      refine ⟨inv, rfl, by simpa using hstatus, by simpa [or_iff_not_imp_left] using hauth,
        Nat.pos_of_ne_zero hzero, fun _ => rfl, fun hf => ?_⟩
      rw [hfavor] at hf
      exact Bool.noConfusion hf
    · rename_i hfavor
      injection h with h
      subst h
      refine ⟨inv, rfl, by simpa using hstatus, by simpa [or_iff_not_imp_left] using hauth,
        Nat.pos_of_ne_zero hzero, fun hf => ?_, fun _ => rfl⟩
      rw [Bool.of_not_eq_true hfavor] at hf
      exact Bool.noConfusion hf

/-- C6 witness: arbitrator `300` refusing the provider on scenario A's
disputed invoice refunds the full `950` to client `200` after zeroing
the balance and setting `Refunded`. -/
theorem resolveDispute_fee_split_and_refund_witness :
    ∃ inv, sA3.invoices 1 = some inv ∧
      inv.status = InvoiceStatus.Disputed ∧
      (300 = inv.terms.arbitrator ∨ 300 = sA3.owner) ∧
      0 < sA3.escrowBalances 1 ∧
      (false = true →
        [Eff.setEscrow 1 0, Eff.setStatus 1 InvoiceStatus.Refunded,
         Eff.transferOut 0 200 950] =
          [Eff.setEscrow 1 0, Eff.setStatus 1 InvoiceStatus.Completed] ++
          [Eff.transferOut inv.token inv.provider
             (sA3.escrowBalances 1 - sA3.escrowBalances 1 * 50 / 10000),
           Eff.transferOut inv.token sA3.feeCollector
             (sA3.escrowBalances 1 * 50 / 10000)]) ∧
      (false = false →
        [Eff.setEscrow 1 0, Eff.setStatus 1 InvoiceStatus.Refunded,
         Eff.transferOut 0 200 950] =
          [Eff.setEscrow 1 0, Eff.setStatus 1 InvoiceStatus.Refunded] ++
          [Eff.transferOut inv.token inv.client (sA3.escrowBalances 1)]) :=
  resolveDispute_fee_split_and_refund sA3 300 4000 1 false
    [Eff.setEscrow 1 0, Eff.setStatus 1 InvoiceStatus.Refunded,
     Eff.transferOut 0 200 950] (by rfl)

/-- C7: every successfully created invoice stores
`dueDate = createdAt + paymentWindow` and
`earlyPaymentDeadline = createdAt + paymentWindow / 2` (integer
division) when a discount is configured, else `0`. -/
theorem createInvoice_deadlines (s : EscrowState) (sender now client amount token : Nat)
    (terms : PaymentTerms) (ipfsHash : String) (s' : EscrowState)
    (h : createInvoice s sender now client amount token terms ipfsHash = .ok s') :
    ∃ inv, s'.invoices s.nextInvoiceId = some inv ∧
      inv.createdAt = now ∧
      inv.terms.paymentWindow = terms.paymentWindow ∧
      inv.terms.earlyPaymentDiscountBps = terms.earlyPaymentDiscountBps ∧
      inv.dueDate = inv.createdAt + inv.terms.paymentWindow ∧
      (0 < inv.terms.earlyPaymentDiscountBps →
        inv.terms.earlyPaymentDeadline = inv.createdAt + inv.terms.paymentWindow / 2) ∧
      (inv.terms.earlyPaymentDiscountBps = 0 → inv.terms.earlyPaymentDeadline = 0) := by
  obtain ⟨_, _, _, _, _, _, _, _, _, _, _, _, hnew⟩ :=
    createInvoice_ok_elim _ _ _ _ _ _ _ _ _ h
  refine ⟨_, hnew, rfl, rfl, rfl, rfl, ?_, ?_⟩
  · intro h0
    have h0' : 0 < terms.earlyPaymentDiscountBps := h0
    simp [h0']
  · intro h0
    have h0' : terms.earlyPaymentDiscountBps = 0 := h0
    simp [h0']

/-- C7 witness: scenario A's creation at time `1000` with a 30-day
window and a positive discount stores `dueDate = 2593000` and
`earlyPaymentDeadline = 1000 + 2592000 / 2`. -/
theorem createInvoice_deadlines_witness :
    ∃ inv, sA1.invoices sBase.nextInvoiceId = some inv ∧
      inv.createdAt = 1000 ∧
      inv.terms.paymentWindow = termsA.paymentWindow ∧
      inv.terms.earlyPaymentDiscountBps = termsA.earlyPaymentDiscountBps ∧
      inv.dueDate = inv.createdAt + inv.terms.paymentWindow ∧
      (0 < inv.terms.earlyPaymentDiscountBps →
        inv.terms.earlyPaymentDeadline = inv.createdAt + inv.terms.paymentWindow / 2) ∧
      (inv.terms.earlyPaymentDiscountBps = 0 → inv.terms.earlyPaymentDeadline = 0) :=
  createInvoice_deadlines sBase 100 1000 200 1000 0 termsA "Qm" sA1 rfl

/-- C8 counterexample: from the reachable state `sA2` (invoice `1`
`Paid` with `950` tracked in escrow and `950` held), the owner's
`emergencyWithdraw(native, 950)` succeeds and empties the holdings while
the escrow record still tracks `950`: the claimed coverage invariant is
false after `emergencyWithdraw`, which does extract escrow-tracked
balance. -/
theorem emergencyWithdraw_breaks_coverage_cex :
    Reachable sB ∧ sumEscrow sB 0 = 950 ∧ sB.held 0 = 0 ∧ ¬ covered sB := by
  refine ⟨reachable_sB, by decide, rfl, fun hcov => absurd (hcov 0) (by decide)⟩

/-- C8 (amended): `emergencyWithdraw` is administrator-only, but it
performs no check that the withdrawn amount is untracked: a successful
call simply deducts the requested amount from the holdings, leaving
every invoice record and escrow balance in place.  The coverage
invariant (per token, tracked escrow totals coverable by holdings) is
preserved by every operation other than `emergencyWithdraw` — which can
break it, as the counterexample shows. -/
theorem emergencyWithdraw_admin_only_and_coverage :
    (∀ s sender token amount s',
      emergencyWithdraw s sender token amount = .ok s' →
        sender = s.owner ∧
        s'.invoices = s.invoices ∧
        s'.escrowBalances = s.escrowBalances ∧
        s'.held = upd s.held token (s.held token - amount)) ∧
    (∀ s sender now op s', Reachable s → step s sender now op = .ok s' →
      (∀ token amount, op ≠ Op.emergencyWithdraw token amount) →
      covered s → covered s') := by
  constructor
  · intro s sender token amount s' h
    unfold emergencyWithdraw at h
    split at h
    · exact Except.noConfusion h
    rename_i hsender
    split at h
    · exact Except.noConfusion h
    injection h with h
    subst h
    exact ⟨by simpa using hsender, rfl, rfl, rfl⟩
  · intro s sender now op s' hreach hok hnw hcov
    exact covered_step s (reachable_inv s hreach) sender now op s' hok hnw hcov

/-- C8 witness: the drain of scenario B is owner-initiated and leaves
the escrow record untouched; and a non-withdraw operation (pausing the
fresh deployment) preserves coverage. -/
theorem emergencyWithdraw_admin_only_and_coverage_witness :
    (900 = sA2.owner ∧
      sB.invoices = sA2.invoices ∧
      sB.escrowBalances = sA2.escrowBalances ∧
      sB.held = upd sA2.held 0 (sA2.held 0 - 950)) ∧
    covered sP :=
  ⟨emergencyWithdraw_admin_only_and_coverage.1 sA2 900 0 950 sB rfl,
   emergencyWithdraw_admin_only_and_coverage.2 sBase 900 0 Op.pause sP
     reachable_sBase rfl (fun token amount hop => Op.noConfusion hop)
     (fun t => Nat.le_refl 0)⟩

/-- C9 counterexample: `resolveDispute` never clears `disputeReasons`,
so in the reachable state `sA4` invoice `1` is `Refunded` while its
stored dispute reason is still the non-empty `"late"`: the claim that a
non-empty reason exists only while the status is `Disputed` is false. -/
theorem dispute_reason_persists_after_refund_cex :
    ¬ (∀ s, Reachable s → ∀ invoiceId, s.disputeReasons invoiceId ≠ "" →
        ∃ inv, s.invoices invoiceId = some inv ∧
          inv.status = InvoiceStatus.Disputed) := by
  intro hclaim
  obtain ⟨inv, hinv, hst⟩ := hclaim sA4 reachable_sA4 1 (by decide)
  have h2 : invA4 = inv :=
    Option.some.inj ((show sA4.invoices 1 = some invA4 from rfl).symm.trans hinv)
  subst h2
  exact absurd hst (by decide)

/-- C9 (amended): a non-empty dispute reason is written only by
`raiseDispute`, together with status `Disputed`; it is never cleared, so
in every reachable state an invoice with a non-empty reason has status
`Disputed`, or `Completed`/`Refunded` after the dispute was resolved —
but never `Created`, `Paid`, `Approved` or `Cancelled`. -/
theorem dispute_reason_status_invariant (s : EscrowState) (h : Reachable s)
    (invoiceId : Nat) (hr : s.disputeReasons invoiceId ≠ "") :
    ∃ inv, s.invoices invoiceId = some inv ∧
      (inv.status = InvoiceStatus.Disputed ∨ inv.status = InvoiceStatus.Completed ∨
       inv.status = InvoiceStatus.Refunded) :=
  (reachable_inv s h).reasonStatus invoiceId hr

/-- C9 witness: while scenario A's dispute is live, the non-empty
reason indeed belongs to a `Disputed` invoice. -/
theorem dispute_reason_status_invariant_witness :
    ∃ inv, sA3.invoices 1 = some inv ∧
      (inv.status = InvoiceStatus.Disputed ∨ inv.status = InvoiceStatus.Completed ∨
       inv.status = InvoiceStatus.Refunded) :=
  dispute_reason_status_invariant sA3 reachable_sA3 1 (by decide)

/-- C10: `Approved` is never a resting status: the only writers of
`Approved` (`makePayment` without `requiresApproval`, `approveInvoice`)
invoke `_releaseFunds` in the same call, which either completes the
invoice or reverts the whole call; hence no invoice in any reachable
state (between operations) has status `Approved`, and in particular a
dispute is never actually raised from `Approved`. -/
theorem no_resting_approved_status (s : EscrowState) (h : Reachable s)
    (invoiceId : Nat) (inv : Invoice) (hinv : s.invoices invoiceId = some inv) :
    inv.status ≠ InvoiceStatus.Approved :=
  (reachable_inv s h).noApproved invoiceId inv hinv

/-- C10 witness: scenario A's paid invoice rests at `Paid`, not
`Approved`. -/
theorem no_resting_approved_status_witness : invA2.status ≠ InvoiceStatus.Approved :=
  no_resting_approved_status sA2 reachable_sA2 1 invA2 rfl
